import Mathlib

/-!
Verification development for the Veilborn rules engine
(`engine/models.py`, `engine/rules.py`).

The Python code is shallowly embedded: dataclasses become structures,
in-place mutation becomes explicit state passing, Python `int` becomes
`Int`, and the float damage multipliers (1.0 / 1.5 / 0.75, all exactly
representable in binary floating point, multiplied by machine integers
small enough for the product to be exact) become rationals.  Python
`int(x)` on a float truncates toward zero, embedded as `Int.tdiv` on the
exact rational; Python `//` on ints is floor division, embedded as
`Int.fdiv`.  Python `dict` iteration order is insertion order, embedded
as association lists kept in insertion order; `sorted` / `list.sort`
are stable, embedded by a stable insertion sort.
-/

namespace Veilborn

/-- The four card archetypes (`models.py` `CardType`). -/
inductive CardType
  | SPECTER
  | REVENANT
  | PHANTOM
  | BEHEMOTH
deriving DecidableEq, Repr, Fintype

/-- Card rarity (`models.py` `Rarity`). -/
inductive Rarity
  | COMMON
  | RARE
  | EPIC
  | LEGENDARY
deriving DecidableEq, Repr

/-- Round state machine phases (`models.py` `GamePhase`). -/
inductive GamePhase
  | DRAW
  | MANA
  | PLACEMENT
  | REVEAL
  | RESOLVE
  | CLEANUP
  | MATCH_OVER
deriving DecidableEq, Repr

/-- Board rows (`models.py` `Row`). -/
inductive Row
  | FRONT
  | BACK
deriving DecidableEq, Repr

/-- The two players (`models.py` `Player`). -/
inductive Player
  | ONE
  | TWO
deriving DecidableEq, Repr

/-- The static type matchup table (`models.py` `TYPE_MATCHUP`, lines 56-81).
Outer argument attacks inner argument; the value is the damage multiplier.
The Python floats 1.0, 1.5, 0.75 are embedded as the exact rationals. -/
def TYPE_MATCHUP : CardType → CardType → ℚ
  | CardType.SPECTER, CardType.SPECTER => mkRat 1 1
  | CardType.SPECTER, CardType.REVENANT => mkRat 3 4
  | CardType.SPECTER, CardType.PHANTOM => mkRat 1 1
  | CardType.SPECTER, CardType.BEHEMOTH => mkRat 3 2
  | CardType.REVENANT, CardType.SPECTER => mkRat 3 2
  | CardType.REVENANT, CardType.REVENANT => mkRat 1 1
  | CardType.REVENANT, CardType.PHANTOM => mkRat 3 4
  | CardType.REVENANT, CardType.BEHEMOTH => mkRat 1 1
  | CardType.PHANTOM, CardType.SPECTER => mkRat 1 1
  | CardType.PHANTOM, CardType.REVENANT => mkRat 3 2
  | CardType.PHANTOM, CardType.PHANTOM => mkRat 1 1
  | CardType.PHANTOM, CardType.BEHEMOTH => mkRat 3 4
  | CardType.BEHEMOTH, CardType.SPECTER => mkRat 3 4
  | CardType.BEHEMOTH, CardType.REVENANT => mkRat 1 1
  | CardType.BEHEMOTH, CardType.PHANTOM => mkRat 3 2
  | CardType.BEHEMOTH, CardType.BEHEMOTH => mkRat 1 1

/-- Ability triggers (`models.py` `AbilityTrigger`). -/
inductive AbilityTrigger
  | ON_ATTACK
  | ON_DEATH
  | ON_SURVIVE_ROUND
  | PASSIVE
deriving DecidableEq, Repr

/-- Ability effects (`models.py` `AbilityEffect`). -/
inductive AbilityEffect
  | LIFESTEAL
  | THORNS
  | LAST_STAND
  | GHOST_STEP
  | VEIL_ECHO
  | ARMOR
deriving DecidableEq, Repr

/-- An ability (`models.py` `Ability`).  The float `value` is embedded as
an exact rational. -/
structure Ability where
  trigger : AbilityTrigger
  effect : AbilityEffect
  value : ℚ
  description : String
deriving DecidableEq, Repr

/-- A card template (`models.py` `CardDefinition`). -/
structure CardDefinition where
  id : String
  name : String
  card_type : CardType
  rarity : Rarity
  base_attack : Int
  base_defense : Int
  speed : Int
  mana_cost : Int
  ability : Option Ability
  lore : String
deriving DecidableEq, Repr

/-- XP thresholds per level (`models.py` `CardDefinition.xp_threshold`). -/
def CardDefinition.xp_threshold (_d : CardDefinition) (level : Int) : Int :=
  if level = 1 then 100
  else if level = 2 then 250
  else if level = 3 then 500
  else if level = 4 then 1000
  else 9999

/-- A player-owned copy of a card (`models.py` `CardInstance`). -/
structure CardInstance where
  instance_id : String
  definition : CardDefinition
  owner : Player
  level : Int := 1
  xp : Int := 0
  consecutive_losses : Int := 0
  is_dormant : Bool := false
deriving DecidableEq, Repr

/-- Derived attack (`models.py` `CardInstance.attack`). -/
def CardInstance.attack (c : CardInstance) : Int :=
  c.definition.base_attack + (c.level - 1)

/-- Derived maximum defense (`models.py` `CardInstance.max_defense`). -/
def CardInstance.max_defense (c : CardInstance) : Int :=
  c.definition.base_defense + (c.level - 1) * 2

/-- Level-up check (`models.py` `CardInstance.level_up`); returns the
updated instance and whether it leveled. -/
def CardInstance.level_up (c : CardInstance) : CardInstance × Bool :=
  let threshold := c.definition.xp_threshold c.level
  if c.xp ≥ threshold ∧ c.level < 5 then
    ({ c with level := c.level + 1, xp := c.xp - threshold }, true)
  else (c, false)

/-- XP gain (`models.py` `CardInstance.add_xp`). -/
def CardInstance.add_xp (c : CardInstance) (amount : Int) : CardInstance × Bool :=
  CardInstance.level_up { c with xp := c.xp + amount }

/-- First component of `add_xp`, used where the Python code ignores the
returned level-up flag. -/
def addXpTo (c : CardInstance) (amount : Int) : CardInstance :=
  (c.add_xp amount).1

/-- A card on the board during a round (`models.py` `BoardCard`).  The
Python field `instance` is named `inst` here because `instance` is a Lean
keyword. -/
structure BoardCard where
  inst : CardInstance
  current_hp : Int
  col : Int
  row : Row
  owner : Player
  face_down : Bool := true
  has_attacked : Bool := false
  position_bonus_attack : Int := 0
deriving DecidableEq, Repr

/-- Liveness (`models.py` `BoardCard.is_alive`). -/
def BoardCard.is_alive (c : BoardCard) : Bool :=
  c.current_hp > 0

/-- Effective attack (`models.py` `BoardCard.effective_attack`). -/
def BoardCard.effective_attack (c : BoardCard) : Int :=
  c.inst.attack + c.position_bonus_attack

/-- The board (`models.py` `Board`): a dict keyed by (col, row, owner) in
insertion order, embedded as a list of cards in insertion order with at
most one card per key. -/
structure Board where
  cells : List BoardCard := []
deriving DecidableEq, Repr

/-- Dict lookup (`models.py` `Board.get`). -/
def Board.get (b : Board) (col : Int) (row : Row) (owner : Player) : Option BoardCard :=
  b.cells.find? (fun c => decide (c.col = col ∧ c.row = row ∧ c.owner = owner))

/-- Placement (`models.py` `Board.place`); `none` models the `ValueError`
raised on an occupied cell. -/
def Board.place (b : Board) (card : BoardCard) : Option Board :=
  if (b.get card.col card.row card.owner).isSome then none
  else some ⟨b.cells ++ [card]⟩

/-- Removal (`models.py` `Board.remove`); `dict.pop` with a default never
raises and preserves the order of the remaining entries. -/
def Board.remove (b : Board) (col : Int) (row : Row) (owner : Player) : Board :=
  ⟨b.cells.filter (fun c => !(decide (c.col = col ∧ c.row = row ∧ c.owner = owner)))⟩

/-- All of one player's cards (`models.py` `Board.cards_for`), in
insertion order. -/
def Board.cards_for (b : Board) (owner : Player) : List BoardCard :=
  b.cells.filter (fun c => decide (c.owner = owner))

/-- One player's front row (`models.py` `Board.front_row_for`). -/
def Board.front_row_for (b : Board) (owner : Player) : List BoardCard :=
  b.cells.filter (fun c => decide (c.owner = owner ∧ c.row = Row.FRONT))

/-- All cards (`models.py` `Board.all_cards`). -/
def Board.all_cards (b : Board) : List BoardCard :=
  b.cells

/-- In-place mutation of the single card stored under a key, embedded as a
map over the cells. -/
def Board.updateAt (b : Board) (col : Int) (row : Row) (owner : Player)
    (f : BoardCard → BoardCard) : Board :=
  ⟨b.cells.map (fun c =>
    if c.col = col ∧ c.row = row ∧ c.owner = owner then f c else c)⟩

/-- Per-player state (`models.py` `PlayerState`). -/
structure PlayerState where
  player : Player
  hand : List CardInstance := []
  deck : List CardInstance := []
  mana : Int := 3
  veil_surge_used : Bool := false
  score : Int := 0
  hp : Int := 20
deriving DecidableEq, Repr

/-- One attack's event record (`models.py` `CombatEvent`).  The Python
code stores `card_type.value` strings; the enum itself is stored here
(the conversion is a bijection).  The narrative
`ability_effect_description` strings are not modelled. -/
structure CombatEvent where
  order : Int
  attacker_name : String
  attacker_type : CardType
  attacker_level : Int
  attacker_owner : Player
  defender_name : String
  defender_type : CardType
  defender_level : Int
  defender_owner : Player
  type_multiplier : ℚ
  raw_attack : Int
  damage_dealt : Int
  position_bonus : Int
  defender_destroyed : Bool
  ability_triggered : Option String := none
deriving DecidableEq, Repr

/-- One round's immutable output (`models.py` `RoundResult`).  The Python
`match_score` dict is split into two fields. -/
structure RoundResult where
  round_number : Int
  events : List CombatEvent
  veil_collapse : Bool
  p1_surviving_defense : Int
  p2_surviving_defense : Int
  round_winner : Option Player
  round_points_awarded : Int
  match_score_p1 : Int
  match_score_p2 : Int
  match_winner : Option Player
  flanking_applied : Option Player
deriving DecidableEq, Repr

/-- Full game state (`models.py` `GameState`); the `game_id` uuid is not
modelled. -/
structure GameState where
  player1 : PlayerState := { player := Player.ONE }
  player2 : PlayerState := { player := Player.TWO }
  board : Board := {}
  current_round : Int := 1
  phase : GamePhase := GamePhase.DRAW
  round_history : List RoundResult := []
  match_winner : Option Player := none
deriving DecidableEq, Repr

/-- Slot selection (`models.py` `GameState.get_player_state`). -/
def GameState.get_player_state (s : GameState) (p : Player) : PlayerState :=
  if p = Player.ONE then s.player1 else s.player2

/-- Writing back through the same slot selection; embedding artifact for
Python's in-place mutation of the selected `PlayerState`. -/
def GameState.set_player_state (s : GameState) (p : Player) (ps : PlayerState) : GameState :=
  if p = Player.ONE then { s with player1 := ps } else { s with player2 := ps }

/-- The other player (`models.py` `GameState.opponent`, also
`rules.py` `opponent_of`). -/
def opponent_of (p : Player) : Player :=
  if p = Player.ONE then Player.TWO else Player.ONE

/-! Constants from `rules.py`, lines 20-28. -/

/-- Front row columns needed for flanking. -/
def FLANKING_THRESHOLD : Nat := 3

/-- Extra attack when flanking. -/
def FLANKING_BONUS : Int := 2

/-- Bonus when facing a type-disadvantaged opponent. -/
def COLUMN_PRESSURE_BONUS : Int := 1

/-- Mana gained each turn. -/
def MANA_PER_TURN : Int := 1

/-- Mana cap. -/
def MANA_CAP : Int := 8

/-- Veil Surge overdraft cap. -/
def VEIL_SURGE_MAX : Int := 3

/-- Fixed number of rounds per match. -/
def ROUNDS_PER_MATCH : Int := 5

/-- Score needed to win the match. -/
def WIN_SCORE : Int := 3

/-- Consecutive losses causing dormancy. -/
def DORMANCY_LOSS_THRESHOLD : Int := 3

/-! Python primitives used by the engine. -/

/-- Python `int(q)` on an exact rational value: truncation toward zero. -/
def pyTrunc (q : ℚ) : Int :=
  Int.tdiv q.num q.den

/-- Python `int(raw * f)` where `raw` is an int and `f` an exactly
representable float whose product with `raw` is exact: truncation toward
zero of the exact rational product. -/
def floatMulTrunc (raw : Int) (q : ℚ) : Int :=
  Int.tdiv (raw * q.num) q.den

/-- Python slice `xs[:n]` for an `Int` index `n` (negative indices count
from the end, out-of-range indices clamp). -/
def pySliceTo {α : Type} (xs : List α) (n : Int) : List α :=
  if 0 ≤ n then xs.take n.toNat else xs.take ((xs.length : Int) + n).toNat

/-- Python slice `xs[n:]` for an `Int` index `n`. -/
def pySliceFrom {α : Type} (xs : List α) (n : Int) : List α :=
  if 0 ≤ n then xs.drop n.toNat else xs.drop ((xs.length : Int) + n).toNat

/-- Stable insertion of `x` after every already-listed element `y` with
`le y x`; building block of the stable sort. -/
def insertStable {α : Type} (le : α → α → Bool) (x : α) : List α → List α
  | [] => [x]
  | y :: ys => if le y x then y :: insertStable le x ys else x :: y :: ys

/-- Stable sort: Python's `sorted`/`list.sort` is stable, so an element
`y` occurring before `x` in the input stays before `x` whenever
`le y x`. -/
def pyStableSort {α : Type} (le : α → α → Bool) (xs : List α) : List α :=
  xs.foldl (fun acc x => insertStable le x acc) []

/-- Lexicographic comparison of int pairs, used for Python tuple sort
keys. -/
def lexLe (p q : Int × Int) : Bool :=
  decide (p.1 < q.1 ∨ (p.1 = q.1 ∧ p.2 ≤ q.2))

/-! Phase: Draw (`rules.py` `phase_draw`, lines 35-43). -/

/-- One player's share of the draw phase: `needed = draw_to - len(hand)`,
`drawn = deck[:needed]`, `deck = deck[needed:]`, `hand.extend(drawn)`. -/
def draw_for (draw_to : Int) (ps : PlayerState) : PlayerState :=
  let needed : Int := draw_to - (ps.hand.length : Int)
  let drawn := pySliceTo ps.deck needed
  { ps with deck := pySliceFrom ps.deck needed, hand := ps.hand ++ drawn }

/-- Draw phase (`rules.py` `phase_draw`); the Python default argument is
`draw_to = 5`. -/
def phase_draw (s : GameState) (draw_to : Int) : GameState :=
  { s with
    player1 := draw_for draw_to s.player1
    player2 := draw_for draw_to s.player2
    phase := GamePhase.MANA }

/-! Phase: Mana (`rules.py` `phase_mana`, lines 50-55). -/

/-- Mana phase: both players gain `MANA_PER_TURN` capped at `MANA_CAP`. -/
def phase_mana (s : GameState) : GameState :=
  let upd := fun (ps : PlayerState) => { ps with mana := min (ps.mana + MANA_PER_TURN) MANA_CAP }
  { s with player1 := upd s.player1, player2 := upd s.player2, phase := GamePhase.PLACEMENT }

/-! Phase: Placement (`rules.py` `validate_placement` lines 62-119,
`apply_placement` lines 122-157). -/

/-- One placement intention: `{"card_instance_id", "col", "row"}`. -/
structure Placement where
  card_instance_id : String
  col : Int
  row : Row
deriving DecidableEq, Repr

/-- Rows a player may place in (`rules.py` `_valid_rows_for`); the code
returns both rows for either player. -/
def _valid_rows_for (_p : Player) : List Row :=
  [Row.FRONT, Row.BACK]

/-- The per-placement validation loop of `validate_placement`: checks
card-in-hand, dormancy, row, column range, duplicate cell, occupied cell,
accumulating total mana cost; `Except.error` is an early `return (False,
msg)` (the Python f-string messages are abbreviated). -/
def validateLoop (state : GameState) (player : Player) (hand : List CardInstance) :
    List Placement → Int → List (Int × Row) → Except String Int
  | [], total, _ => Except.ok total
  | p :: rest, total, placed_cells =>
    match hand.find? (fun c => decide (c.instance_id = p.card_instance_id)) with
    | none => Except.error "Card not in hand"
    | some card =>
      if card.is_dormant then Except.error "Card is dormant"
      else if ¬ (p.row ∈ _valid_rows_for player) then Except.error "Cannot place in row"
      else if ¬ (0 ≤ p.col ∧ p.col ≤ 3) then Except.error "Column out of range"
      else if (p.col, p.row) ∈ placed_cells then Except.error "Duplicate cell placement"
      else if (state.board.get p.col p.row player).isSome then Except.error "Cell already occupied"
      else validateLoop state player hand rest (total + card.definition.mana_cost)
             (placed_cells ++ [(p.col, p.row)])

/-- Placement validation (`rules.py` `validate_placement`): the loop above
followed by the mana / Veil Surge check of lines 112-117. -/
def validate_placement (state : GameState) (player : Player) (placements : List Placement) :
    Bool × String :=
  let ps := state.get_player_state player
  match validateLoop state player ps.hand placements 0 [] with
  | Except.error e => (false, e)
  | Except.ok total_mana =>
    if total_mana > ps.mana then
      let overdraft := total_mana - ps.mana
      if ps.veil_surge_used ∨ overdraft > VEIL_SURGE_MAX then
        (false, "Insufficient mana")
      else (true, "")
    else (true, "")

/-- The mutation loop of `apply_placement`, lines 131-147.  The returned
flag is `true` when an exception escaped: `StopIteration` from `next(...)`
when the card is not in hand, or `ValueError` from `Board.place`; the
returned state keeps every mutation made before the exception, as the
Python objects would. -/
def applyLoop (player : Player) :
    List Placement → GameState → Int → GameState × Int × Bool
  | [], state, total => (state, total, false)
  | p :: rest, state, total =>
    let ps := state.get_player_state player
    match ps.hand.find? (fun c => decide (c.instance_id = p.card_instance_id)) with
    | none => (state, total, true)
    | some card_instance =>
      let board_card : BoardCard :=
        { inst := card_instance
          current_hp := card_instance.max_defense
          col := p.col
          row := p.row
          owner := player
          face_down := true }
      match state.board.place board_card with
      | none => (state, total, true)
      | some b1 =>
        let ps1 := { ps with hand := ps.hand.erase card_instance }
        let state1 := GameState.set_player_state { state with board := b1 } player ps1
        applyLoop player rest state1 (total + card_instance.definition.mana_cost)

/-- Placement application (`rules.py` `apply_placement`): the loop above,
then mana deduction with the Veil Surge debt of lines 149-156.  The flag
is `true` when an unhandled exception escaped, in which case the mana
step never ran. -/
def apply_placement (state : GameState) (player : Player) (placements : List Placement) :
    GameState × Bool :=
  let r := applyLoop player placements state 0
  let state1 := r.1
  let total_mana := r.2.1
  if r.2.2 then (state1, true)
  else
    let ps := state1.get_player_state player
    let ps1 :=
      if total_mana > ps.mana then
        { ps with mana := -(total_mana - ps.mana), veil_surge_used := true }
      else { ps with mana := ps.mana - total_mana }
    (GameState.set_player_state state1 player ps1, false)

/-! Phase: Reveal (`rules.py` `phase_reveal`, lines 164-169). -/

/-- Reveal phase: flip all face-down cards. -/
def phase_reveal (s : GameState) : GameState :=
  { s with
    board := ⟨s.board.cells.map (fun c => { c with face_down := false })⟩
    phase := GamePhase.RESOLVE }

/-! Targeting (`rules.py` `_find_target`, lines 418-456). -/

/-- Back-row protection (the `is_targetable` closure, lines 429-433): a
back-row card can only be targeted if the front-row cell of the same
column on its own side is empty; the blocker's liveness is not
consulted. -/
def is_targetable (board : Board) (card : BoardCard) : Bool :=
  if card.row = Row.BACK then (board.get card.col Row.FRONT card.owner).isNone
  else true

/-- The guard applied to priorities 1 and 2 of `_find_target`: the cell's
card, if present, alive and targetable. -/
def aliveTargetable (board : Board) (c : Option BoardCard) : Option BoardCard :=
  match c with
  | some d => if d.is_alive && is_targetable board d then some d else none
  | none => none

/-- Deterministic targeting (`rules.py` `_find_target`): same-column
front row, else same-column back row, else nearest alive targetable
enemy by column distance with ties broken by lowest current HP (Python's
stable tuple sort). -/
def _find_target (attacker : BoardCard) (board : Board) : Option BoardCard :=
  let opponent := if attacker.owner = Player.ONE then Player.TWO else Player.ONE
  match aliveTargetable board (board.get attacker.col Row.FRONT opponent) with
  | some d => some d
  | none =>
    match aliveTargetable board (board.get attacker.col Row.BACK opponent) with
    | some d => some d
    | none =>
      let enemies := (board.cards_for opponent).filter
        (fun c => c.is_alive && is_targetable board c)
      let sorted := pyStableSort
        (fun a b => lexLe (|a.col - attacker.col|, a.current_hp)
                          (|b.col - attacker.col|, b.current_hp)) enemies
      sorted.head?

/-! Position bonuses (`rules.py` `_apply_flanking` lines 463-480,
`_apply_column_pressure` lines 483-497). -/

/-- Flanking (`rules.py` `_apply_flanking`): per player in order
[ONE, TWO], if the player occupies at least `FLANKING_THRESHOLD` distinct
front-row columns and the opponent at most 2, every front-row card of
that player gains `FLANKING_BONUS` attack; returns the board and the
player recorded as flanking. -/
def _apply_flanking (board : Board) : Board × Option Player :=
  [Player.ONE, Player.TWO].foldl
    (fun acc player =>
      let b := acc.1
      let opponent := if player = Player.ONE then Player.TWO else Player.ONE
      let my_cols := ((b.front_row_for player).map (fun c => c.col)).dedup
      let opp_cols := ((b.front_row_for opponent).map (fun c => c.col)).dedup
      if my_cols.length ≥ FLANKING_THRESHOLD ∧ opp_cols.length ≤ 2 then
        (⟨b.cells.map (fun c =>
            if c.owner = player ∧ c.row = Row.FRONT then
              { c with position_bonus_attack := c.position_bonus_attack + FLANKING_BONUS }
            else c)⟩,
         some player)
      else acc)
    (board, none)

/-- Column pressure (`rules.py` `_apply_column_pressure`): per player in
order [ONE, TWO], each front-row card facing in its column an opponent it
has a 1.5 multiplier against gains `COLUMN_PRESSURE_BONUS` attack. -/
def _apply_column_pressure (board : Board) : Board :=
  [Player.ONE, Player.TWO].foldl
    (fun b player =>
      let opponent := if player = Player.ONE then Player.TWO else Player.ONE
      ⟨b.cells.map (fun c =>
        if c.owner = player ∧ c.row = Row.FRONT then
          match b.get c.col Row.FRONT opponent with
          | some oc =>
            if TYPE_MATCHUP c.inst.definition.card_type oc.inst.definition.card_type = mkRat 3 2
            then { c with position_bonus_attack := c.position_bonus_attack + COLUMN_PRESSURE_BONUS }
            else c
          | none => c
        else c)⟩)
    board

/-! Phase: Resolve (`rules.py` `phase_resolve`, lines 176-337). -/

/-- A board dict key (col, row, owner); during the attack loop a card's
key never changes, so the key identifies the Python object reference. -/
def BoardCard.cellKey (c : BoardCard) : Int × Row × Player :=
  (c.col, c.row, c.owner)

/-- Lookup by key. -/
def Board.getKey (b : Board) (k : Int × Row × Player) : Option BoardCard :=
  b.get k.1 k.2.1 k.2.2

/-- Update by key. -/
def Board.updateKey (b : Board) (k : Int × Row × Player)
    (f : BoardCard → BoardCard) : Board :=
  b.updateAt k.1 k.2.1 k.2.2 f

/-- Damage of one attack (`rules.py` lines 213-224): truncated product of
the raw attack with the matchup multiplier, then flat reduction by a
defender's ARMOR-effect ability value, floored at 0.  The code checks
only `ability.effect == ARMOR`, not the trigger. -/
def computeDamage (raw : Int) (atype dtype : CardType) (dability : Option Ability) : Int :=
  let damage := floatMulTrunc raw (TYPE_MATCHUP atype dtype)
  match dability with
  | some ab =>
    if ab.effect = AbilityEffect.ARMOR then max 0 (damage - pyTrunc ab.value)
    else damage
  | none => damage

/-- The optional in-place LIFESTEAL heal of the attacker's cell
(`rules.py` lines 232-238): heal capped at the instance's
`max_defense`. -/
def applyHeal (b : Board) (k : Int × Row × Player) (o : Option Int) : Board :=
  match o with
  | some heal => b.updateKey k
      (fun c => { c with current_hp := min (c.current_hp + heal) c.inst.max_defense })
  | none => b

/-- The optional in-place VEIL_ECHO damage to the attacker's cell
(`rules.py` lines 243-249). -/
def applyEcho (b : Board) (k : Int × Row × Player) (o : Option Int) : Board :=
  match o with
  | some echo => b.updateKey k (fun c => { c with current_hp := c.current_hp - echo })
  | none => b

/-- Accumulator of the attack loop: the board (whose cards the Python
loop mutates through shared references), the event list, the event
counter, and the keys of destroyed defenders (`dead_cards`). -/
structure ResolveAcc where
  board : Board
  events : List CombatEvent
  event_order : Int
  dead_keys : List (Int × Row × Player)
deriving DecidableEq, Repr

/-- One iteration of the attack loop (`rules.py` lines 205-271): skip a
dead attacker, find a target, deal damage, run LIFESTEAL on the attacker
and VEIL_ECHO on a destroyed defender, emit the event, record the
destroyed defender. -/
def attackStep (acc : ResolveAcc) (k : Int × Row × Player) : ResolveAcc :=
  match acc.board.getKey k with
  | none => acc
  | some attacker =>
    if ¬ attacker.is_alive then acc
    else
      match _find_target attacker acc.board with
      | none => acc
      | some target =>
        let atype := attacker.inst.definition.card_type
        let dtype := target.inst.definition.card_type
        let multiplier := TYPE_MATCHUP atype dtype
        let raw := attacker.effective_attack
        let damage := computeDamage raw atype dtype target.inst.definition.ability
        let board1 := acc.board.updateKey target.cellKey
          (fun c => { c with current_hp := c.current_hp - damage })
        let event_order := acc.event_order + 1
        let heal_amt : Option Int :=
          match attacker.inst.definition.ability with
          | some ab =>
            if ab.trigger = AbilityTrigger.ON_ATTACK ∧ ab.effect = AbilityEffect.LIFESTEAL
            then some (floatMulTrunc damage ab.value) else none
          | none => none
        let board2 := applyHeal board1 k heal_amt
        let destroyed :=
          match board2.getKey target.cellKey with
          | some t => ¬ t.is_alive
          | none => false
        let echo_amt : Option Int :=
          if destroyed then
            match target.inst.definition.ability with
            | some ab =>
              if ab.trigger = AbilityTrigger.ON_DEATH ∧ ab.effect = AbilityEffect.VEIL_ECHO
              then some (Int.fdiv target.inst.attack 2) else none
            | none => none
          else none
        let board3 := applyEcho board2 k echo_amt
        let trig : Option String :=
          if echo_amt.isSome then some "Veil Echo"
          else if heal_amt.isSome then some "Lifesteal"
          else none
        let ev : CombatEvent :=
          { order := event_order
            attacker_name := attacker.inst.definition.name
            attacker_type := atype
            attacker_level := attacker.inst.level
            attacker_owner := attacker.owner
            defender_name := target.inst.definition.name
            defender_type := dtype
            defender_level := target.inst.level
            defender_owner := target.owner
            type_multiplier := multiplier
            raw_attack := raw
            damage_dealt := damage
            position_bonus := attacker.position_bonus_attack
            defender_destroyed := destroyed
            ability_triggered := trig }
        { board := board3
          events := acc.events ++ [ev]
          event_order := event_order
          dead_keys := if destroyed then acc.dead_keys ++ [target.cellKey] else acc.dead_keys }

/-- The single attack ordering of the round (`rules.py` lines 196-200):
all cards sorted descending by (speed, effective_attack); Python's
`sorted(..., reverse=True)` is stable, so equal keys keep insertion
order. -/
def resolveOrder (board : Board) : List (Int × Row × Player) :=
  (pyStableSort
    (fun y x => lexLe (x.inst.definition.speed, x.effective_attack)
                      (y.inst.definition.speed, y.effective_attack))
    board.all_cards).map BoardCard.cellKey

/-- Round scoring (`rules.py` lines 278-301), computed on the board after
dead-card removal: returns (p1_def, p2_def, round_winner, points). -/
def scoreRound (board : Board) : Int × Int × Option Player × Int :=
  let p1_def := ((board.cards_for Player.ONE).map (fun c => c.current_hp)).sum
  let p2_def := ((board.cards_for Player.TWO).map (fun c => c.current_hp)).sum
  let p1_wiped := (board.cards_for Player.ONE).length = 0
  let p2_wiped := (board.cards_for Player.TWO).length = 0
  if p1_wiped ∧ p2_wiped then (p1_def, p2_def, none, 0)
  else if p2_wiped ∧ ¬ p1_wiped then (p1_def, p2_def, some Player.ONE, 2)
  else if p1_wiped ∧ ¬ p2_wiped then (p1_def, p2_def, some Player.TWO, 2)
  else if p1_def > p2_def then (p1_def, p2_def, some Player.ONE, 1)
  else if p2_def > p1_def then (p1_def, p2_def, some Player.TWO, 1)
  else (p1_def, p2_def, none, 0)

/-- Awarding the round points (`rules.py` lines 303-305); the Python
`if round_winner:` is truthy for both enum members. -/
def applyScore (s : GameState) (winner : Option Player) (points : Int) : GameState :=
  match winner with
  | some w =>
    let ps := s.get_player_state w
    s.set_player_state w { ps with score := ps.score + points }
  | none => s

/-- Match conclusion check (`rules.py` lines 307-318). -/
def matchConclusion (p1score p2score current_round : Int) : Option Player :=
  if p1score ≥ WIN_SCORE then some Player.ONE
  else if p2score ≥ WIN_SCORE then some Player.TWO
  else if current_round ≥ ROUNDS_PER_MATCH then
    if p1score > p2score then some Player.ONE
    else if p2score > p1score then some Player.TWO
    else none
  else none

/-- Resolve phase (`rules.py` `phase_resolve`): position bonuses, Veil
Collapse bonus in the final round, the speed-ordered attack loop,
deferred dead-card removal, scoring, match conclusion, result record,
phase transition. -/
def phase_resolve (state : GameState) : GameState × RoundResult :=
  let veil_collapse : Bool := state.current_round = ROUNDS_PER_MATCH
  let flank := _apply_flanking state.board
  let b2 := _apply_column_pressure flank.1
  let b3 :=
    if veil_collapse then
      Board.mk (b2.cells.map (fun c =>
        { c with position_bonus_attack := c.position_bonus_attack + Int.fdiv c.inst.attack 2 }))
    else b2
  let order := resolveOrder b3
  let acc := order.foldl attackStep
    { board := b3, events := [], event_order := 0, dead_keys := [] }
  let b4 := acc.dead_keys.foldl (fun b k => b.remove k.1 k.2.1 k.2.2) acc.board
  let score := scoreRound b4
  let state1 := applyScore { state with board := b4 } score.2.2.1 score.2.2.2
  let mw := matchConclusion state1.player1.score state1.player2.score state1.current_round
  let result : RoundResult :=
    { round_number := state1.current_round
      events := acc.events
      veil_collapse := veil_collapse
      p1_surviving_defense := score.1
      p2_surviving_defense := score.2.1
      round_winner := score.2.2.1
      round_points_awarded := score.2.2.2
      match_score_p1 := state1.player1.score
      match_score_p2 := state1.player2.score
      match_winner := mw
      flanking_applied := flank.2 }
  ({ state1 with
      match_winner := mw
      round_history := state1.round_history ++ [result]
      phase := if mw.isSome then GamePhase.MATCH_OVER else GamePhase.CLEANUP },
   result)

/-! Phase: Cleanup (`rules.py` `phase_cleanup`, lines 344-411). -/

/-- Survivor XP (`rules.py` lines 360-367): each card still on the board
gains XP equal to the damage its (name, owner) pair dealt this round plus
the flat survival bonus of 10, mutating the instance held by the board
card. -/
def cleanupSurvivorXp (events : List CombatEvent) (surviving_names : List String)
    (board : Board) : Board :=
  ⟨board.all_cards.map (fun card =>
    let damage_dealt := ((events.filter (fun e =>
      decide (e.attacker_name = card.inst.definition.name ∧
              e.attacker_owner = card.owner))).map (fun e => e.damage_dealt)).sum
    let xp_earned := damage_dealt +
      (if card.inst.definition.name ∈ surviving_names then 10 else 0)
    { card with inst := addXpTo card.inst xp_earned })⟩

/-- Destroyed-card XP backfill (`rules.py` lines 370-379) restricted to
one player's slot: for every event with `defender_destroyed`, every
instance in `deck + hand` whose definition name equals the defender's
name gains half (floor) the total damage dealt by attackers of that name
(summed with no owner filter). -/
def cleanupDestroyedXp (events : List CombatEvent) (ps : PlayerState) : PlayerState :=
  (events.filter (fun e => e.defender_destroyed)).foldl
    (fun ps ev =>
      let damage_dealt := ((events.filter (fun e =>
        decide (e.attacker_name = ev.defender_name))).map (fun e => e.damage_dealt)).sum
      let upd := fun (ci : CardInstance) =>
        if ci.definition.name = ev.defender_name
        then addXpTo ci (Int.fdiv damage_dealt 2) else ci
      { ps with deck := ps.deck.map upd, hand := ps.hand.map upd })
    ps

/-- Dormancy bookkeeping for the round loser's instances (`rules.py`
lines 385-392): a destroyed name increments the consecutive-loss counter
and sets dormancy at the threshold, any other name resets the counter. -/
def cleanupDormancy (destroyed_names : List String) (ps : PlayerState) : PlayerState :=
  let upd := fun (ci : CardInstance) =>
    if ci.definition.name ∈ destroyed_names then
      let cl := ci.consecutive_losses + 1
      { ci with
        consecutive_losses := cl
        is_dormant := ci.is_dormant || decide (cl ≥ DORMANCY_LOSS_THRESHOLD) }
    else { ci with consecutive_losses := 0 }
  { ps with deck := ps.deck.map upd, hand := ps.hand.map upd }

/-- Mana debt repayment (`rules.py` lines 405-407). -/
def cleanupManaDebt (ps : PlayerState) : PlayerState :=
  if ps.mana < 0 then { ps with mana := 0 } else ps

/-- Cleanup phase (`rules.py` `phase_cleanup`): XP for survivors and
destroyed names, dormancy for the loser, surviving board cards returned
to hands, board cleared, mana debt forgiven, round advanced.  `none`
models the `IndexError` of `round_history[-1]` on an empty history. -/
def phase_cleanup (state : GameState) : Option GameState :=
  match state.round_history.getLast? with
  | none => none
  | some last_result =>
    let destroyed_names :=
      ((last_result.events.filter (fun e => e.defender_destroyed)).map
        (fun e => e.defender_name))
    let surviving_names := state.board.all_cards.map (fun c => c.inst.definition.name)
    let board1 := cleanupSurvivorXp last_result.events surviving_names state.board
    let ps1a := cleanupDestroyedXp last_result.events state.player1
    let ps2a := cleanupDestroyedXp last_result.events state.player2
    let round_loser : Option Player :=
      match last_result.round_winner with
      | some w => some (opponent_of w)
      | none => none
    let ps1b := if round_loser = some Player.ONE then cleanupDormancy destroyed_names ps1a else ps1a
    let ps2b := if round_loser = some Player.TWO then cleanupDormancy destroyed_names ps2a else ps2a
    let ps1c := { ps1b with
      hand := ps1b.hand ++ (board1.cards_for ps1b.player).map (fun c => c.inst) }
    let ps2c := { ps2b with
      hand := ps2b.hand ++ (board1.cards_for ps2b.player).map (fun c => c.inst) }
    some { state with
      player1 := cleanupManaDebt ps1c
      player2 := cleanupManaDebt ps2c
      board := ⟨[]⟩
      current_round := state.current_round + 1
      phase := GamePhase.DRAW }

/-! Concrete fixtures used to evaluate the engine on small inputs. -/

/-- A minimal card definition for concrete scenarios. -/
def testDef (nm : String) (ct : CardType) (atk df spd cost : Int)
    (ab : Option Ability) : CardDefinition :=
  { id := nm
    name := nm
    card_type := ct
    rarity := Rarity.COMMON
    base_attack := atk
    base_defense := df
    speed := spd
    mana_cost := cost
    ability := ab
    lore := "" }

/-- A fresh level-1 instance of a card. -/
def testInst (iid : String) (d : CardDefinition) (ow : Player) : CardInstance :=
  { instance_id := iid, definition := d, owner := ow }

/-- An empty player state with given slot, hand, deck and mana. -/
def testPS (p : Player) (hand deck : List CardInstance) (mana : Int) : PlayerState :=
  { player := p, hand := hand, deck := deck, mana := mana }

/-- Draw-phase scenario: player 1 holds six cards and has three cards in
deck. -/
def drawOverfullState : GameState :=
  let mk := fun (i : String) => testInst i (testDef "Filler" CardType.SPECTER 1 1 1 1 none) Player.ONE
  { player1 := testPS Player.ONE
      [mk "h1", mk "h2", mk "h3", mk "h4", mk "h5", mk "h6"]
      [mk "d1", mk "d2", mk "d3"] 3
    player2 := testPS Player.TWO [] [] 3 }

/-- Round pipeline scenario for XP of destroyed cards: Xcard (player 1,
speed 5, attack 4, defense 5) hits Ycard (player 2, speed 3, attack 10,
defense 20) for 4 damage, then Ycard destroys Xcard. -/
def xpRoundStart : GameState :=
  let x := testInst "x1" (testDef "Xcard" CardType.SPECTER 4 5 5 1 none) Player.ONE
  let y := testInst "y1" (testDef "Ycard" CardType.SPECTER 10 20 3 1 none) Player.TWO
  { player1 := testPS Player.ONE [x] [] 8
    player2 := testPS Player.TWO [y] [] 8 }

/-- The same scenario taken through placement and reveal. -/
def xpRoundRevealed : GameState :=
  let s1 := (apply_placement xpRoundStart Player.ONE
    [{ card_instance_id := "x1", col := 0, row := Row.FRONT }]).1
  let s2 := (apply_placement s1 Player.TWO
    [{ card_instance_id := "y1", col := 0, row := Row.FRONT }]).1
  phase_reveal s2

/-- The scenario's resolve output. -/
def xpRoundResolved : GameState × RoundResult :=
  phase_resolve xpRoundRevealed

/-- The scenario's state after cleanup. -/
def xpRoundFinal : Option GameState :=
  phase_cleanup xpRoundResolved.1

/-- The XP scenario's state after cleanup, extracted from the option. -/
def xpRoundCleaned : GameState :=
  (phase_cleanup xpRoundResolved.1).getD ({} : GameState)

/-- Veil Echo round: Acard (player 1, attack 10, defense 3, speed 5)
destroys Ecard (player 2, attack 8, defense 8, ON_DEATH VEIL_ECHO), whose
echo of `8 // 2 = 4` damage kills Acard back. -/
def echoRoundStart : GameState :=
  let a := testInst "a1" (testDef "Acard" CardType.SPECTER 10 3 5 1 none) Player.ONE
  let e := testInst "e1" (testDef "Ecard" CardType.SPECTER 8 8 2 1
    (some { trigger := AbilityTrigger.ON_DEATH, effect := AbilityEffect.VEIL_ECHO,
            value := mkRat 1 2, description := "" })) Player.TWO
  { player1 := testPS Player.ONE [a] [] 8
    player2 := testPS Player.TWO [e] [] 8 }

/-- The echo round taken through placement and reveal. -/
def echoRoundRevealed : GameState :=
  let s1 := (apply_placement echoRoundStart Player.ONE
    [{ card_instance_id := "a1", col := 0, row := Row.FRONT }]).1
  let s2 := (apply_placement s1 Player.TWO
    [{ card_instance_id := "e1", col := 0, row := Row.FRONT }]).1
  phase_reveal s2

/-- The echo round's resolve output. -/
def echoRoundResolved : GameState × RoundResult :=
  phase_resolve echoRoundRevealed

/-- The echo round's state after cleanup. -/
def echoRoundFinal : Option GameState :=
  phase_cleanup echoRoundResolved.1

/-- Dead-blocker board: an attacker of player 1 faces, in column 0, a
dead (hp 0) front-row card and a live back-row card of player 2. -/
def deadBlockerAttacker : BoardCard :=
  { inst := testInst "att" (testDef "Att" CardType.SPECTER 5 5 5 1 none) Player.ONE
    current_hp := 5, col := 0, row := Row.FRONT, owner := Player.ONE, face_down := false }

/-- The dead front-row blocker of player 2. -/
def deadBlockerFront : BoardCard :=
  { inst := testInst "blk" (testDef "Blk" CardType.SPECTER 2 4 2 1 none) Player.TWO
    current_hp := 0, col := 0, row := Row.FRONT, owner := Player.TWO, face_down := false }

/-- The live back-row card of player 2 behind the dead blocker. -/
def deadBlockerBack : BoardCard :=
  { inst := testInst "bck" (testDef "Bck" CardType.SPECTER 3 6 3 1 none) Player.TWO
    current_hp := 6, col := 0, row := Row.BACK, owner := Player.TWO, face_down := false }

/-- The dead-blocker board. -/
def deadBlockerBoard : Board :=
  ⟨[deadBlockerAttacker, deadBlockerFront, deadBlockerBack]⟩

/-- Duplicate-reference placement scenario: player 1 holds two cards of
mana cost 2 each and 8 mana. -/
def dupRefState : GameState :=
  let c1 := testInst "c1" (testDef "Cone" CardType.SPECTER 2 2 2 2 none) Player.ONE
  let c2 := testInst "c2" (testDef "Ctwo" CardType.SPECTER 2 2 2 2 none) Player.ONE
  { player1 := testPS Player.ONE [c1, c2] [] 8
    player2 := testPS Player.TWO [] [] 8 }

/-- A batch naming the same card instance for two distinct cells. -/
def dupRefBatch : List Placement :=
  [{ card_instance_id := "c1", col := 0, row := Row.FRONT },
   { card_instance_id := "c1", col := 1, row := Row.FRONT }]

/-- A batch naming two cards for the same cell. -/
def dupCellBatch : List Placement :=
  [{ card_instance_id := "c1", col := 0, row := Row.FRONT },
   { card_instance_id := "c2", col := 0, row := Row.FRONT }]

/-- Veil Surge scenario: player 1 holds two 5-cost cards with 3 mana. -/
def surgeState : GameState :=
  let c1 := testInst "s1" (testDef "Sone" CardType.SPECTER 2 2 2 5 none) Player.ONE
  let c2 := testInst "s2" (testDef "Stwo" CardType.SPECTER 2 2 2 5 none) Player.ONE
  { player1 := testPS Player.ONE [c1, c2] [] 3
    player2 := testPS Player.TWO [] [] 3 }

/-- The overdraft batch placing the first 5-cost card. -/
def surgeBatch : List Placement :=
  [{ card_instance_id := "s1", col := 0, row := Row.FRONT }]

/-- The second overdraft batch, after the first was applied. -/
def surgeBatch2 : List Placement :=
  [{ card_instance_id := "s2", col := 1, row := Row.FRONT }]

/-- Targeting witness board: a player 1 attacker faces a live front-row
enemy in its column. -/
def c4Attacker : BoardCard :=
  { inst := testInst "q1" (testDef "Qatt" CardType.SPECTER 4 6 4 1 none) Player.ONE
    current_hp := 6, col := 1, row := Row.FRONT, owner := Player.ONE, face_down := false }

/-- The live front-row enemy on the targeting witness board. -/
def c4Enemy : BoardCard :=
  { inst := testInst "q2" (testDef "Qdef" CardType.SPECTER 3 4 3 1 none) Player.TWO
    current_hp := 4, col := 1, row := Row.FRONT, owner := Player.TWO, face_down := false }

/-- The targeting witness board. -/
def c4Board : Board :=
  ⟨[c4Attacker, c4Enemy]⟩

/-- A defender carrying a non-ARMOR ability (THORNS), used to witness
that the floor formula also covers ability-carrying defenders. -/
def c8ThornsEnemy : BoardCard :=
  { inst := testInst "q3" (testDef "Qthorns" CardType.SPECTER 3 4 3 1
      (some { trigger := AbilityTrigger.ON_ATTACK, effect := AbilityEffect.THORNS,
              value := mkRat 1 2, description := "" })) Player.TWO
    current_hp := 4, col := 1, row := Row.FRONT, owner := Player.TWO, face_down := false }

/-- The damage witness board with the THORNS defender. -/
def c8Board : Board :=
  ⟨[c4Attacker, c8ThornsEnemy]⟩

/-- Scoring witness board: only player 1 occupies the board. -/
def c6Board : Board :=
  ⟨[{ inst := testInst "k1" (testDef "Kcard" CardType.SPECTER 3 7 3 1 none) Player.ONE
      current_hp := 7, col := 2, row := Row.FRONT, owner := Player.ONE, face_down := false }]⟩

/-- Match-point resolve scenario: player 1 at score 2 with a lone card on
the board against an empty side in round 2. -/
def matchPointState : GameState :=
  let a := testInst "w1" (testDef "Wcard" CardType.SPECTER 5 5 5 1 none) Player.ONE
  { player1 := { player := Player.ONE, mana := 8, score := 2 }
    player2 := { player := Player.TWO, mana := 8 }
    board := ⟨[{ inst := a, current_hp := 5, col := 0, row := Row.FRONT,
                 owner := Player.ONE, face_down := false }]⟩
    current_round := 2 }

/-! Theorems settling the claims. -/

/-- Reading back the player state just written through the same slot. -/
theorem get_set_player_state_same (s : GameState) (p : Player) (ps : PlayerState) :
    (s.set_player_state p ps).get_player_state p = ps := by
  cases p <;> simp [GameState.set_player_state, GameState.get_player_state]

/-- Reading the other slot after a write. -/
theorem get_set_player_state_other (s : GameState) (p q : Player) (ps : PlayerState)
    (h : p ≠ q) : (s.set_player_state p ps).get_player_state q = s.get_player_state q := by
  cases p <;> cases q <;> simp_all [GameState.set_player_state, GameState.get_player_state]

/-- Awarding round points never touches the round counter. -/
theorem applyScore_current_round (s : GameState) (w : Option Player) (p : Int) :
    (applyScore s w p).current_round = s.current_round := by
  cases w with
  | none => rfl
  | some w => cases w <;> rfl

/-- Awarding round points never touches the board. -/
theorem applyScore_board (s : GameState) (w : Option Player) (p : Int) :
    (applyScore s w p).board = s.board := by
  cases w with
  | none => rfl
  | some w => cases w <;> rfl

/-- C1, counterexample: the pair (SPECTER, PHANTOM) is a distinct pair
with multiplier 1.0 in both directions, so it is not the case that
exactly one direction is 1.5 with reverse 0.75 for every distinct
pair. -/
theorem C1_counterexample :
    CardType.SPECTER ≠ CardType.PHANTOM ∧
    TYPE_MATCHUP CardType.SPECTER CardType.PHANTOM = mkRat 1 1 ∧
    TYPE_MATCHUP CardType.PHANTOM CardType.SPECTER = mkRat 1 1 ∧
    ¬ ((TYPE_MATCHUP CardType.SPECTER CardType.PHANTOM = mkRat 3 2 ∧
        TYPE_MATCHUP CardType.PHANTOM CardType.SPECTER = mkRat 3 4) ∨
       (TYPE_MATCHUP CardType.PHANTOM CardType.SPECTER = mkRat 3 2 ∧
        TYPE_MATCHUP CardType.SPECTER CardType.PHANTOM = mkRat 3 4)) := by
  decide

/-- C1, amended: Matchup[x][x] = 1.0 for every type x, and every pair of
distinct types either has exactly one direction at 1.5 with the reverse
at 0.75, or is neutral with 1.0 in both directions. -/
theorem C1_matchup_table :
    ∀ a b : CardType,
      (a = b → TYPE_MATCHUP a b = mkRat 1 1) ∧
      (a ≠ b →
        ((TYPE_MATCHUP a b = mkRat 3 2 ∧ TYPE_MATCHUP b a = mkRat 3 4) ∧
           ¬ (TYPE_MATCHUP b a = mkRat 3 2)) ∨
        ((TYPE_MATCHUP b a = mkRat 3 2 ∧ TYPE_MATCHUP a b = mkRat 3 4) ∧
           ¬ (TYPE_MATCHUP a b = mkRat 3 2)) ∨
        (TYPE_MATCHUP a b = mkRat 1 1 ∧ TYPE_MATCHUP b a = mkRat 1 1)) := by
  decide

/-- C1, witness: the amended theorem applied to the advantaged pair
(SPECTER, BEHEMOTH). -/
theorem C1_matchup_table_witness :
    ((TYPE_MATCHUP CardType.SPECTER CardType.BEHEMOTH = mkRat 3 2 ∧
        TYPE_MATCHUP CardType.BEHEMOTH CardType.SPECTER = mkRat 3 4) ∧
       ¬ (TYPE_MATCHUP CardType.BEHEMOTH CardType.SPECTER = mkRat 3 2)) ∨
    ((TYPE_MATCHUP CardType.BEHEMOTH CardType.SPECTER = mkRat 3 2 ∧
        TYPE_MATCHUP CardType.SPECTER CardType.BEHEMOTH = mkRat 3 4) ∧
       ¬ (TYPE_MATCHUP CardType.SPECTER CardType.BEHEMOTH = mkRat 3 2)) ∨
    (TYPE_MATCHUP CardType.SPECTER CardType.BEHEMOTH = mkRat 1 1 ∧
       TYPE_MATCHUP CardType.BEHEMOTH CardType.SPECTER = mkRat 1 1) :=
  (C1_matchup_table CardType.SPECTER CardType.BEHEMOTH).2 (by decide)

/-- C2, evaluation at the failing input: a hand of six cards (≥ 5) with a
three-card deck.  `needed = 5 - 6 = -1` and the Python slices
`deck[:-1]` / `deck[-1:]` move the first two deck cards into the hand,
instead of drawing nothing as the claim (and the function's docstring)
state. -/
theorem C2_draw_overfull_hand :
    drawOverfullState.player1.hand.length = 6 ∧
    drawOverfullState.player1.deck.length = 3 ∧
    ((phase_draw drawOverfullState 5).player1.hand.map (fun c => c.instance_id) =
      ["h1", "h2", "h3", "h4", "h5", "h6", "d1", "d2"]) ∧
    ((phase_draw drawOverfullState 5).player1.deck.map (fun c => c.instance_id) =
      ["d3"]) := by
  decide

/-- C3, evaluation at the failing input: Xcard deals 4 damage and is then
destroyed; the claim demands its xp to grow by `4 // 2 = 2`, but after
Cleanup the instance `x1` is in neither hand nor deck of either player
(the only instance left in the match is `y1`), so the destroyed
instance's xp counter was never credited — the backfill loop of
`phase_cleanup` searches only `deck + hand`, which no longer contain the
destroyed instance. -/
theorem C3_destroyed_card_gets_no_xp :
    (xpRoundResolved.2.events.map
        (fun e => (e.attacker_name, e.damage_dealt, e.defender_destroyed)) =
      [("Xcard", 4, false), ("Ycard", 10, true)]) ∧
    (xpRoundFinal.map (fun s =>
        (s.player1.hand ++ s.player1.deck ++ s.player2.hand ++ s.player2.deck).map
          (fun c => (c.instance_id, c.xp))) =
      some [("y1", 20)]) := by
  decide

/-- C4, counterexample: a back-row card whose same-column front-row ally
is present but dead (hp 0) is still protected — `is_targetable` consults
only occupancy, not liveness — so the attacker finds no target even
though a live enemy exists; the claim's "occupied by a live card" iff
fails. -/
theorem C4_counterexample :
    deadBlockerFront.is_alive = false ∧
    deadBlockerBoard.get 0 Row.FRONT Player.TWO = some deadBlockerFront ∧
    deadBlockerBack.is_alive = true ∧
    deadBlockerBack.row = Row.BACK ∧
    is_targetable deadBlockerBoard deadBlockerBack = false ∧
    _find_target deadBlockerAttacker deadBlockerBoard = none := by
  decide

/-- C9, counterexample: Acard is destroyed during the round (killed by
Ecard's Veil Echo, ending at -1 hp), yet it is never put on the
`dead_cards` list, stays on the board through end of Resolve, and Cleanup
returns it to its owner's hand — so a card instance destroyed during a
round is not always permanently removed from the match. -/
theorem C9_counterexample :
    (echoRoundResolved.2.events.map
        (fun e => (e.attacker_name, e.defender_destroyed, e.ability_triggered)) =
      [("Acard", true, some "Veil Echo")]) ∧
    (echoRoundResolved.1.board.all_cards.map
        (fun c => (c.inst.instance_id, c.current_hp)) =
      [("a1", -1)]) ∧
    (echoRoundFinal.map (fun s => s.player1.hand.map (fun c => c.instance_id)) =
      some ["a1"]) := by
  decide

/-- C10: a batch listing the same card instance id for two distinct cells
passes `validate_placement` (which rejects duplicate target cells but
never checks duplicate card references), and `apply_placement` on it hits
the modelled `StopIteration` after having already moved the card to the
board and out of the hand. -/
theorem C10_duplicate_reference_batch :
    (validate_placement dupRefState Player.ONE dupRefBatch = (true, "")) ∧
    ((validate_placement dupRefState Player.ONE dupCellBatch).1 = false) ∧
    ((apply_placement dupRefState Player.ONE dupRefBatch).2 = true) ∧
    ((apply_placement dupRefState Player.ONE dupRefBatch).1.board.all_cards.map
        (fun c => c.inst.instance_id) = ["c1"]) ∧
    ((apply_placement dupRefState Player.ONE dupRefBatch).1.player1.hand.map
        (fun c => c.instance_id) = ["c2"]) ∧
    dupRefState.board.all_cards = [] ∧
    (dupRefState.player1.hand.map (fun c => c.instance_id) = ["c1", "c2"]) := by
  decide

/-- C6: round scoring on the post-removal board — both sides wiped is a
tie worth 0; exactly one side wiped gives the opponent the round with 2
points regardless of defense totals; otherwise the strictly higher
surviving HP total wins 1 point and equality is a tie worth 0; and
awarding the points adds exactly the points to the round winner's
cumulative score, leaving the other player's score unchanged. -/
theorem C6_round_scoring (board : Board) (s : GameState) :
    ((board.cards_for Player.ONE = [] ∧ board.cards_for Player.TWO = []) →
      (scoreRound board).2.2.1 = none ∧ (scoreRound board).2.2.2 = 0) ∧
    ((board.cards_for Player.TWO = [] ∧ board.cards_for Player.ONE ≠ []) →
      (scoreRound board).2.2.1 = some Player.ONE ∧ (scoreRound board).2.2.2 = 2) ∧
    ((board.cards_for Player.ONE = [] ∧ board.cards_for Player.TWO ≠ []) →
      (scoreRound board).2.2.1 = some Player.TWO ∧ (scoreRound board).2.2.2 = 2) ∧
    ((board.cards_for Player.ONE ≠ [] ∧ board.cards_for Player.TWO ≠ [] ∧
        ((board.cards_for Player.ONE).map (fun c => c.current_hp)).sum >
          ((board.cards_for Player.TWO).map (fun c => c.current_hp)).sum) →
      (scoreRound board).2.2.1 = some Player.ONE ∧ (scoreRound board).2.2.2 = 1) ∧
    ((board.cards_for Player.ONE ≠ [] ∧ board.cards_for Player.TWO ≠ [] ∧
        ((board.cards_for Player.TWO).map (fun c => c.current_hp)).sum >
          ((board.cards_for Player.ONE).map (fun c => c.current_hp)).sum) →
      (scoreRound board).2.2.1 = some Player.TWO ∧ (scoreRound board).2.2.2 = 1) ∧
    ((board.cards_for Player.ONE ≠ [] ∧ board.cards_for Player.TWO ≠ [] ∧
        ((board.cards_for Player.ONE).map (fun c => c.current_hp)).sum =
          ((board.cards_for Player.TWO).map (fun c => c.current_hp)).sum) →
      (scoreRound board).2.2.1 = none ∧ (scoreRound board).2.2.2 = 0) ∧
    (∀ w, (scoreRound board).2.2.1 = some w →
      ((applyScore s (scoreRound board).2.2.1 (scoreRound board).2.2.2).get_player_state w).score =
        (s.get_player_state w).score + (scoreRound board).2.2.2 ∧
      ((applyScore s (scoreRound board).2.2.1 (scoreRound board).2.2.2).get_player_state
          (opponent_of w)).score =
        (s.get_player_state (opponent_of w)).score) := by
  have hscore : ∀ w pts, ((applyScore s (some w) pts).get_player_state w).score =
      (s.get_player_state w).score + pts := by
    intro w pts
    simp [applyScore, get_set_player_state_same]
  have hother : ∀ w pts, ((applyScore s (some w) pts).get_player_state (opponent_of w)).score =
      (s.get_player_state (opponent_of w)).score := by
    intro w pts
    have hne : w ≠ opponent_of w := by cases w <;> decide
    simp [applyScore, get_set_player_state_other s w (opponent_of w) _ hne]
  refine ⟨?_, ?_, ?_, ?_, ?_, ?_, ?_⟩
  case _ =>
    rintro ⟨h1, h2⟩
    simp [scoreRound, h1, h2]
  case _ =>
    rintro ⟨h2, h1⟩
    simp [scoreRound, h1, h2, List.length_eq_zero]
  case _ =>
    rintro ⟨h1, h2⟩
    simp [scoreRound, h1, h2, List.length_eq_zero]
  case _ =>
    rintro ⟨h1, h2, h3⟩
    simp [scoreRound, h1, h2, h3, List.length_eq_zero]
  case _ =>
    rintro ⟨h1, h2, h3⟩
    have h4 : ¬ (((board.cards_for Player.ONE).map (fun c => c.current_hp)).sum >
        ((board.cards_for Player.TWO).map (fun c => c.current_hp)).sum) := by omega
    simp [scoreRound, h1, h2, h3, h4, List.length_eq_zero]
  case _ =>
    rintro ⟨h1, h2, h3⟩
    simp [scoreRound, h1, h2, h3, List.length_eq_zero]
  case _ =>
    intro w hw
    exact ⟨hw ▸ hscore w _, hw ▸ hother w _⟩

/-- C6, witness: on a board where only player 1 has cards, player 2 is
wiped and player 1 takes the round with 2 points; awarding them raises
player 1's score from 0 to 2. -/
theorem C6_round_scoring_witness :
    ((scoreRound c6Board).2.2.1 = some Player.ONE ∧ (scoreRound c6Board).2.2.2 = 2) ∧
    (((applyScore ({} : GameState) (scoreRound c6Board).2.2.1
        (scoreRound c6Board).2.2.2).get_player_state Player.ONE).score =
      (({} : GameState).get_player_state Player.ONE).score + (scoreRound c6Board).2.2.2 ∧
     ((applyScore ({} : GameState) (scoreRound c6Board).2.2.1
        (scoreRound c6Board).2.2.2).get_player_state
          (opponent_of Player.ONE)).score =
      (({} : GameState).get_player_state (opponent_of Player.ONE)).score) :=
  ⟨(C6_round_scoring c6Board ({} : GameState)).2.1 (by decide),
   (C6_round_scoring c6Board ({} : GameState)).2.2.2.2.2.2 Player.ONE
     ((C6_round_scoring c6Board ({} : GameState)).2.1 (by decide)).1⟩

/-- Facts about `matchConclusion` used to settle C7. -/
theorem matchConclusion_cases (x y r : Int) :
    (x ≥ WIN_SCORE → matchConclusion x y r = some Player.ONE) ∧
    (y ≥ WIN_SCORE ∧ x < WIN_SCORE → matchConclusion x y r = some Player.TWO) ∧
    (x < WIN_SCORE ∧ y < WIN_SCORE ∧ r = ROUNDS_PER_MATCH →
      (x > y → matchConclusion x y r = some Player.ONE) ∧
      (y > x → matchConclusion x y r = some Player.TWO) ∧
      (x = y → matchConclusion x y r = none)) := by
  simp only [matchConclusion, WIN_SCORE, ROUNDS_PER_MATCH]
  refine ⟨?_, ?_, ?_⟩
  case _ =>
    intro h
    rw [if_pos h]
  case _ =>
    rintro ⟨h1, h2⟩
    rw [if_neg (by omega), if_pos h1]
  case _ =>
    rintro ⟨h1, h2, h3⟩
    refine ⟨?_, ?_, ?_⟩ <;> intro h
    case _ =>
      rw [if_neg (by omega), if_neg (by omega), if_pos (by omega), if_pos h]
    case _ =>
      rw [if_neg (by omega), if_neg (by omega), if_pos (by omega), if_neg (by omega), if_pos h]
    case _ =>
      rw [if_neg (by omega), if_neg (by omega), if_pos (by omega), if_neg (by omega),
        if_neg (by omega)]

/-- The resolve phase sets `match_winner` by `matchConclusion` on the
post-award scores and the round counter it entered with, and moves to
MATCH_OVER exactly when a winner was set. -/
theorem phase_resolve_conclusion (state : GameState) :
    (phase_resolve state).1.match_winner =
      matchConclusion (phase_resolve state).1.player1.score
        (phase_resolve state).1.player2.score state.current_round ∧
    (phase_resolve state).1.phase =
      (if ((phase_resolve state).1.match_winner).isSome
       then GamePhase.MATCH_OVER else GamePhase.CLEANUP) := by
  dsimp only [phase_resolve]
  rw [applyScore_current_round]
  exact ⟨rfl, rfl⟩

/-- C7: after any Resolve, a player whose cumulative score reached
`WIN_SCORE` (3) becomes match winner with the phase set to MATCH_OVER,
independent of the round number; when neither score reached 3 and the
round is the fixed final round (5), the strictly higher scorer becomes
winner, while equal scores leave `match_winner` unset. -/
theorem C7_match_conclusion (state : GameState) :
    ((phase_resolve state).1.player1.score ≥ WIN_SCORE →
      (phase_resolve state).1.match_winner = some Player.ONE ∧
      (phase_resolve state).1.phase = GamePhase.MATCH_OVER) ∧
    ((phase_resolve state).1.player2.score ≥ WIN_SCORE ∧
        (phase_resolve state).1.player1.score < WIN_SCORE →
      (phase_resolve state).1.match_winner = some Player.TWO ∧
      (phase_resolve state).1.phase = GamePhase.MATCH_OVER) ∧
    ((phase_resolve state).1.player1.score < WIN_SCORE ∧
        (phase_resolve state).1.player2.score < WIN_SCORE ∧
        state.current_round = ROUNDS_PER_MATCH →
      ((phase_resolve state).1.player1.score > (phase_resolve state).1.player2.score →
        (phase_resolve state).1.match_winner = some Player.ONE ∧
        (phase_resolve state).1.phase = GamePhase.MATCH_OVER) ∧
      ((phase_resolve state).1.player2.score > (phase_resolve state).1.player1.score →
        (phase_resolve state).1.match_winner = some Player.TWO ∧
        (phase_resolve state).1.phase = GamePhase.MATCH_OVER) ∧
      ((phase_resolve state).1.player1.score = (phase_resolve state).1.player2.score →
        (phase_resolve state).1.match_winner = none)) := by
  obtain ⟨hmw, hph⟩ := phase_resolve_conclusion state
  obtain ⟨c1, c2, c3⟩ := matchConclusion_cases (phase_resolve state).1.player1.score
    (phase_resolve state).1.player2.score state.current_round
  refine ⟨?_, ?_, ?_⟩
  case _ =>
    intro h
    refine ⟨hmw.trans (c1 h), ?_⟩
    rw [hph, hmw, c1 h]
    rfl
  case _ =>
    intro h
    refine ⟨hmw.trans (c2 h), ?_⟩
    rw [hph, hmw, c2 h]
    rfl
  case _ =>
    intro h
    obtain ⟨d1, d2, d3⟩ := c3 h
    refine ⟨?_, ?_, ?_⟩
    case _ =>
      intro hgt
      refine ⟨hmw.trans (d1 hgt), ?_⟩
      rw [hph, hmw, d1 hgt]
      rfl
    case _ =>
      intro hgt
      refine ⟨hmw.trans (d2 hgt), ?_⟩
      rw [hph, hmw, d2 hgt]
      rfl
    case _ =>
      intro heq
      exact hmw.trans (d3 heq)

/-- C7, witness: resolving `matchPointState` takes player 1 from score 2
to 4 via a full wipe, so the match ends at round 2 with player 1 as
winner. -/
theorem C7_match_conclusion_witness :
    (phase_resolve matchPointState).1.player1.score ≥ WIN_SCORE ∧
    ((phase_resolve matchPointState).1.match_winner = some Player.ONE ∧
      (phase_resolve matchPointState).1.phase = GamePhase.MATCH_OVER) :=
  ⟨by decide, (C7_match_conclusion matchPointState).1 (by decide)⟩

/-- C5: for a batch whose per-card checks pass with total cost above the
available mana, validation rejects it exactly when Veil Surge was already
used or the overdraft exceeds `VEIL_SURGE_MAX` (3); an applied overdraft
batch leaves the player's mana at the negated overdraft with
`veil_surge_used` set; and once `veil_surge_used` holds, any further
over-mana batch is rejected. -/
theorem C5_veil_surge (state : GameState) (player : Player)
    (placements : List Placement) (total : Int) :
    (validateLoop state player (state.get_player_state player).hand placements 0 [] =
        Except.ok total →
      total > (state.get_player_state player).mana →
      ((validate_placement state player placements).1 = false ↔
        ((state.get_player_state player).veil_surge_used ∨
          total - (state.get_player_state player).mana > VEIL_SURGE_MAX))) ∧
    ((apply_placement state player placements).2 = false →
      (applyLoop player placements state 0).2.1 >
        ((applyLoop player placements state 0).1.get_player_state player).mana →
      (((apply_placement state player placements).1.get_player_state player).mana =
          -((applyLoop player placements state 0).2.1 -
            ((applyLoop player placements state 0).1.get_player_state player).mana) ∧
        ((apply_placement state player placements).1.get_player_state player).veil_surge_used =
          true)) ∧
    ((state.get_player_state player).veil_surge_used = true →
      validateLoop state player (state.get_player_state player).hand placements 0 [] =
        Except.ok total →
      total > (state.get_player_state player).mana →
      (validate_placement state player placements).1 = false) := by
  refine ⟨?_, ?_, ?_⟩
  case _ =>
    intro hv hov
    dsimp only [validate_placement]
    rw [hv]
    dsimp only
    rw [if_pos hov]
    by_cases hc : ((state.get_player_state player).veil_surge_used ∨
        total - (state.get_player_state player).mana > VEIL_SURGE_MAX)
    case pos =>
      rw [if_pos hc]
      simpa using hc
    case neg =>
      rw [if_neg hc]
      simpa using hc
  case _ =>
    intro hno hov
    dsimp only [apply_placement] at hno ⊢
    by_cases he : (applyLoop player placements state 0).2.2 = true
    case pos =>
      rw [if_pos he] at hno
      exact absurd hno (by simp)
    case neg =>
      rw [if_neg he] at hno ⊢
      dsimp only
      rw [if_pos hov, get_set_player_state_same]
      exact ⟨rfl, rfl⟩
  case _ =>
    intro hused hv hov
    dsimp only [validate_placement]
    rw [hv]
    dsimp only
    rw [if_pos hov, if_pos (Or.inl (by simp [hused]))]

/-- C5, witness: a 5-cost card with 3 mana (overdraft 2 ≤ 3, Veil Surge
unused) is accepted, applying it sets mana to -2 with `veil_surge_used`,
and a second 5-cost overdraft is then rejected. -/
theorem C5_veil_surge_witness :
    ((validate_placement surgeState Player.ONE surgeBatch).1 = false ↔
      ((surgeState.get_player_state Player.ONE).veil_surge_used ∨
        5 - (surgeState.get_player_state Player.ONE).mana > VEIL_SURGE_MAX)) ∧
    ((((apply_placement surgeState Player.ONE surgeBatch).1.get_player_state Player.ONE).mana =
        -((applyLoop Player.ONE surgeBatch surgeState 0).2.1 -
          ((applyLoop Player.ONE surgeBatch surgeState 0).1.get_player_state Player.ONE).mana)) ∧
      (((apply_placement surgeState Player.ONE
          surgeBatch).1.get_player_state Player.ONE).veil_surge_used = true)) ∧
    ((validate_placement (apply_placement surgeState Player.ONE surgeBatch).1
        Player.ONE surgeBatch2).1 = false) :=
  ⟨(C5_veil_surge surgeState Player.ONE surgeBatch 5).1 (by rfl) (by decide),
   (C5_veil_surge surgeState Player.ONE surgeBatch 5).2.1 (by decide) (by decide),
   (C5_veil_surge (apply_placement surgeState Player.ONE surgeBatch).1 Player.ONE
      surgeBatch2 5).2.2 (by decide) (by rfl) (by decide)⟩

/-- Membership through stable insertion. -/
theorem mem_insertStable {α : Type} (le : α → α → Bool) (x a : α) (l : List α) :
    a ∈ insertStable le x l → a = x ∨ a ∈ l := by
  induction l with
  | nil => simp [insertStable]
  | cons y ys ih =>
    dsimp only [insertStable]
    split
    case isTrue =>
      intro h
      rcases List.mem_cons.mp h with h | h
      case inl => exact Or.inr (List.mem_cons.mpr (Or.inl h))
      case inr =>
        rcases ih h with h | h
        case inl => exact Or.inl h
        case inr => exact Or.inr (List.mem_cons.mpr (Or.inr h))
    case isFalse =>
      intro h
      rcases List.mem_cons.mp h with h | h
      case inl => exact Or.inl h
      case inr => exact Or.inr h

/-- Membership through the stable-sort fold, generalized over the
accumulator. -/
theorem mem_pyStableSort_aux {α : Type} (le : α → α → Bool) (a : α) :
    ∀ (xs acc : List α),
      a ∈ xs.foldl (fun acc x => insertStable le x acc) acc → a ∈ acc ∨ a ∈ xs := by
  intro xs
  induction xs with
  | nil =>
    intro acc h
    exact Or.inl h
  | cons x xs ih =>
    intro acc h
    rcases ih (insertStable le x acc) h with h | h
    case inl =>
      rcases mem_insertStable le x a acc h with h | h
      case inl => exact Or.inr (by simp [h])
      case inr => exact Or.inl h
    case inr => exact Or.inr (List.mem_cons.mpr (Or.inr h))

/-- The stable sort produces no new elements. -/
theorem mem_pyStableSort {α : Type} (le : α → α → Bool) (a : α) (xs : List α) :
    a ∈ pyStableSort le xs → a ∈ xs := by
  intro h
  rcases mem_pyStableSort_aux le a xs [] h with h | h
  case inl => simp at h
  case inr => exact h

/-- A card returned by the priority-1/2 guard is alive and targetable. -/
theorem aliveTargetable_some (board : Board) (o : Option BoardCard) (d : BoardCard)
    (h : aliveTargetable board o = some d) :
    d.is_alive = true ∧ is_targetable board d = true := by
  cases o with
  | none => simp [aliveTargetable] at h
  | some x =>
    dsimp only [aliveTargetable] at h
    by_cases hc : (x.is_alive && is_targetable board x) = true
    case pos =>
      rw [if_pos hc] at h
      cases h
      simp only [Bool.and_eq_true] at hc
      exact hc
    case neg =>
      rw [if_neg hc] at h
      cases h

/-- A card found under a key carries that key in its fields. -/
theorem get_fields (b : Board) (col : Int) (row : Row) (owner : Player) (c : BoardCard)
    (h : b.get col row owner = some c) : c.col = col ∧ c.row = row ∧ c.owner = owner := by
  unfold Board.get at h
  have hp := List.find?_some h
  simpa using hp

/-- The priority-1/2 guard returns the card it inspected. -/
theorem aliveTargetable_eq (board : Board) (o : Option BoardCard) (d : BoardCard)
    (h : aliveTargetable board o = some d) : o = some d := by
  cases o with
  | none => simp [aliveTargetable] at h
  | some x =>
    dsimp only [aliveTargetable] at h
    by_cases hc : (x.is_alive && is_targetable board x) = true
    case pos =>
      rw [if_pos hc] at h
      cases h
      rfl
    case neg =>
      rw [if_neg hc] at h
      cases h

/-- Any defender chosen by `_find_target` belongs to the attacker's
opponent. -/
theorem find_target_owner (attacker t : BoardCard) (board : Board)
    (h : _find_target attacker board = some t) :
    t.owner = (if attacker.owner = Player.ONE then Player.TWO else Player.ONE) := by
  dsimp only [_find_target] at h
  split at h
  case h_1 d hd =>
    cases h
    exact (get_fields board _ _ _ _ (aliveTargetable_eq board _ _ hd)).2.2
  case h_2 =>
    split at h
    case h_1 d hd =>
      cases h
      exact (get_fields board _ _ _ _ (aliveTargetable_eq board _ _ hd)).2.2
    case h_2 =>
      have hmem : t ∈ (board.cards_for
          (if attacker.owner = Player.ONE then Player.TWO else Player.ONE)).filter
          (fun c => c.is_alive && is_targetable board c) := by
        apply mem_pyStableSort
        cases hs : pyStableSort
          (fun a b => lexLe (|a.col - attacker.col|, a.current_hp)
                            (|b.col - attacker.col|, b.current_hp))
          ((board.cards_for
            (if attacker.owner = Player.ONE then Player.TWO else Player.ONE)).filter
            (fun c => c.is_alive && is_targetable board c)) with
        | nil =>
          rw [hs] at h
          cases h
        | cons a rest =>
          rw [hs] at h
          cases h
          exact List.mem_cons_self _ _
      have hmem2 := (List.mem_filter.mp hmem).1
      unfold Board.cards_for at hmem2
      have := (List.mem_filter.mp hmem2).2
      simpa using this

/-- A key-preserving in-place update, read back at the written key. -/
theorem find?_update_list_same (k : Int × Row × Player) (f : BoardCard → BoardCard)
    (hk : ∀ c, (f c).col = c.col ∧ (f c).row = c.row ∧ (f c).owner = c.owner) :
    ∀ (cells : List BoardCard),
      ((cells.map (fun c =>
          if c.col = k.1 ∧ c.row = k.2.1 ∧ c.owner = k.2.2 then f c else c)).find?
        (fun c => decide (c.col = k.1 ∧ c.row = k.2.1 ∧ c.owner = k.2.2))) =
      (cells.find? (fun c => decide (c.col = k.1 ∧ c.row = k.2.1 ∧ c.owner = k.2.2))).map f := by
  intro cells
  induction cells with
  | nil => rfl
  | cons c cs ih =>
    rw [List.map_cons]
    by_cases hc : (c.col = k.1 ∧ c.row = k.2.1 ∧ c.owner = k.2.2)
    case pos =>
      rw [if_pos hc]
      rw [List.find?_cons_of_pos _ (by
        obtain ⟨h1, h2, h3⟩ := hk c
        simp [h1, h2, h3, hc.1, hc.2.1, hc.2.2])]
      rw [List.find?_cons_of_pos _ (by simp [hc.1, hc.2.1, hc.2.2])]
      rfl
    case neg =>
      rw [if_neg hc]
      rw [List.find?_cons_of_neg _ (by simpa using hc)]
      rw [List.find?_cons_of_neg _ (by simpa using hc)]
      exact ih

/-- A key-preserving in-place update, read back at a different key. -/
theorem find?_update_list_other (k q : Int × Row × Player) (f : BoardCard → BoardCard)
    (hk : ∀ c, (f c).col = c.col ∧ (f c).row = c.row ∧ (f c).owner = c.owner)
    (hne : ¬ (q.1 = k.1 ∧ q.2.1 = k.2.1 ∧ q.2.2 = k.2.2)) :
    ∀ (cells : List BoardCard),
      ((cells.map (fun c =>
          if c.col = k.1 ∧ c.row = k.2.1 ∧ c.owner = k.2.2 then f c else c)).find?
        (fun c => decide (c.col = q.1 ∧ c.row = q.2.1 ∧ c.owner = q.2.2))) =
      cells.find? (fun c => decide (c.col = q.1 ∧ c.row = q.2.1 ∧ c.owner = q.2.2)) := by
  intro cells
  induction cells with
  | nil => rfl
  | cons c cs ih =>
    rw [List.map_cons]
    by_cases hq : (c.col = q.1 ∧ c.row = q.2.1 ∧ c.owner = q.2.2)
    case pos =>
      have hck : ¬ (c.col = k.1 ∧ c.row = k.2.1 ∧ c.owner = k.2.2) := by
        intro hc
        exact hne ⟨hq.1 ▸ hc.1, hq.2.1 ▸ hc.2.1, hq.2.2 ▸ hc.2.2⟩
      rw [if_neg hck]
      rw [List.find?_cons_of_pos _ (by simp [hq.1, hq.2.1, hq.2.2])]
      rw [List.find?_cons_of_pos _ (by simp [hq.1, hq.2.1, hq.2.2])]
    case neg =>
      by_cases hck : (c.col = k.1 ∧ c.row = k.2.1 ∧ c.owner = k.2.2)
      case pos =>
        rw [if_pos hck]
        rw [List.find?_cons_of_neg _ (by
          obtain ⟨h1, h2, h3⟩ := hk c
          simp only [h1, h2, h3]
          simpa using hq)]
        rw [List.find?_cons_of_neg _ (by simpa using hq)]
        exact ih
      case neg =>
        rw [if_neg hck]
        rw [List.find?_cons_of_neg _ (by simpa using hq)]
        rw [List.find?_cons_of_neg _ (by simpa using hq)]
        exact ih

/-- `Board.updateKey` read back at the written key. -/
theorem getKey_updateKey_self (b : Board) (k : Int × Row × Player) (f : BoardCard → BoardCard)
    (hk : ∀ c, (f c).col = c.col ∧ (f c).row = c.row ∧ (f c).owner = c.owner) :
    (b.updateKey k f).getKey k = (b.getKey k).map f :=
  find?_update_list_same k f hk b.cells

/-- `Board.updateKey` read back at a different key. -/
theorem getKey_updateKey_other (b : Board) (k q : Int × Row × Player) (f : BoardCard → BoardCard)
    (hk : ∀ c, (f c).col = c.col ∧ (f c).row = c.row ∧ (f c).owner = c.owner)
    (hne : ¬ (q.1 = k.1 ∧ q.2.1 = k.2.1 ∧ q.2.2 = k.2.2)) :
    (b.updateKey k f).getKey q = b.getKey q :=
  find?_update_list_other k q f hk hne b.cells

/-- Python `int(raw * f)` agrees with the mathematical floor when the
product is non-negative. -/
theorem floatMulTrunc_eq_floor (raw : Int) (q : ℚ) (hraw : 0 ≤ raw) (hq : 0 ≤ q) :
    floatMulTrunc raw q = ⌊(raw : ℚ) * q⌋ := by
  have hnum : 0 ≤ q.num := Rat.num_nonneg.mpr hq
  have h1 : 0 ≤ raw * q.num := mul_nonneg hraw hnum
  rw [floatMulTrunc, Int.tdiv_eq_ediv h1 (Int.ofNat_nonneg q.den)]
  rw [← Rat.floor_intCast_div_natCast (raw * q.num) q.den]
  congr 1
  push_cast
  rw [mul_div_assoc, Rat.num_div_den]

/-- Every matchup multiplier is non-negative. -/
theorem TYPE_MATCHUP_nonneg (a b : CardType) : 0 ≤ TYPE_MATCHUP a b := by
  have h : 0 ≤ (TYPE_MATCHUP a b).num := by
    cases a <;> cases b <;> decide
  exact Rat.num_nonneg.mp h

/-- The optional LIFESTEAL heal touches only the attacker's cell. -/
theorem getKey_applyHeal_other (b : Board) (k q : Int × Row × Player) (o : Option Int)
    (hne : ¬ (q.1 = k.1 ∧ q.2.1 = k.2.1 ∧ q.2.2 = k.2.2)) :
    (applyHeal b k o).getKey q = b.getKey q := by
  cases o with
  | none => rfl
  | some heal => exact getKey_updateKey_other b k q _ (fun c => ⟨rfl, rfl, rfl⟩) hne

/-- The optional VEIL_ECHO damage touches only the attacker's cell. -/
theorem getKey_applyEcho_other (b : Board) (k q : Int × Row × Player) (o : Option Int)
    (hne : ¬ (q.1 = k.1 ∧ q.2.1 = k.2.1 ∧ q.2.2 = k.2.2)) :
    (applyEcho b k o).getKey q = b.getKey q := by
  cases o with
  | none => rfl
  | some echo => exact getKey_updateKey_other b k q _ (fun c => ⟨rfl, rfl, rfl⟩) hne

/-- C4, amended: a board card is untargetable exactly when it is in the
back row with its same-column front-row cell on its own side occupied by
any card, alive or dead; front-row cards are always targetable; and
`_find_target` only ever selects targetable defenders, so a back-row card
whose same-column front cell is occupied (in particular by a live ally)
is never selected. -/
theorem C4_back_row_protection (board : Board) (attacker c t : BoardCard) :
    (is_targetable board c = false ↔
      (c.row = Row.BACK ∧ (board.get c.col Row.FRONT c.owner).isSome)) ∧
    (c.row = Row.FRONT → is_targetable board c = true) ∧
    (_find_target attacker board = some t → is_targetable board t = true) := by
  refine ⟨?_, ?_, ?_⟩
  case _ =>
    unfold is_targetable
    by_cases hr : c.row = Row.BACK
    case pos =>
      rw [if_pos hr]
      cases hg : board.get c.col Row.FRONT c.owner <;> simp [hr, hg]
    case neg =>
      rw [if_neg hr]
      simp [hr]
  case _ =>
    intro hf
    unfold is_targetable
    rw [if_neg (by rw [hf]; exact fun h => Row.noConfusion h)]
  case _ =>
    intro h
    dsimp only [_find_target] at h
    split at h
    case h_1 d hd =>
      cases h
      exact (aliveTargetable_some board _ _ hd).2
    case h_2 =>
      split at h
      case h_1 d hd =>
        cases h
        exact (aliveTargetable_some board _ _ hd).2
      case h_2 =>
        have hmem : t ∈ (board.cards_for
            (if attacker.owner = Player.ONE then Player.TWO else Player.ONE)).filter
            (fun c => c.is_alive && is_targetable board c) := by
          apply mem_pyStableSort
          cases hs : pyStableSort
            (fun a b => lexLe (|a.col - attacker.col|, a.current_hp)
                              (|b.col - attacker.col|, b.current_hp))
            ((board.cards_for
              (if attacker.owner = Player.ONE then Player.TWO else Player.ONE)).filter
              (fun c => c.is_alive && is_targetable board c)) with
          | nil =>
            rw [hs] at h
            cases h
          | cons a rest =>
            rw [hs] at h
            cases h
            exact List.mem_cons_self _ _
        have := List.mem_filter.mp hmem
        simp only [Bool.and_eq_true] at this
        exact this.2.2

/-- C4, witness: on a two-card board the attacker selects the live
front-row enemy, which the theorem certifies as targetable; the enemy,
being front-row, is targetable both ways. -/
theorem C4_back_row_protection_witness :
    (is_targetable c4Board c4Enemy = false ↔
      (c4Enemy.row = Row.BACK ∧ (c4Board.get c4Enemy.col Row.FRONT c4Enemy.owner).isSome)) ∧
    is_targetable c4Board c4Enemy = true ∧
    is_targetable c4Board c4Enemy = true :=
  ⟨(C4_back_row_protection c4Board c4Attacker c4Enemy c4Enemy).1,
   (C4_back_row_protection c4Board c4Attacker c4Enemy c4Enemy).2.1 (by decide),
   (C4_back_row_protection c4Board c4Attacker c4Enemy c4Enemy).2.2 (by decide)⟩

/-- Removing a key leaves nothing at that key. -/
theorem getKey_remove_self (b : Board) (k : Int × Row × Player) :
    (b.remove k.1 k.2.1 k.2.2).getKey k = none := by
  apply List.find?_eq_none.mpr
  intro x hx
  have hpred := (List.mem_filter.mp hx).2
  simp at hpred ⊢
  tauto

/-- Removals never re-populate a key. -/
theorem getKey_remove_none (b : Board) (col : Int) (row : Row) (owner : Player)
    (k : Int × Row × Player) (h : b.getKey k = none) :
    (b.remove col row owner).getKey k = none := by
  apply List.find?_eq_none.mpr
  intro x hx
  exact List.find?_eq_none.mp h x (List.mem_filter.mp hx).1

/-- A fold of removals preserves emptiness of a key. -/
theorem removeFold_preserves_none (ks : List (Int × Row × Player)) :
    ∀ (b : Board) (k : Int × Row × Player), b.getKey k = none →
      (ks.foldl (fun bb kk => bb.remove kk.1 kk.2.1 kk.2.2) b).getKey k = none := by
  induction ks with
  | nil =>
    intro b k h
    exact h
  | cons k0 ks ih =>
    intro b k h
    exact ih _ k (getKey_remove_none b k0.1 k0.2.1 k0.2.2 k h)

/-- Step 5 of the resolver: after folding the removals of `dead_cards`
over the board, every removed key is unoccupied. -/
theorem removeFold_getKey (ks : List (Int × Row × Player)) :
    ∀ (b : Board) (k : Int × Row × Player), k ∈ ks →
      (ks.foldl (fun bb kk => bb.remove kk.1 kk.2.1 kk.2.2) b).getKey k = none := by
  induction ks with
  | nil =>
    intro b k h
    cases h
  | cons k0 ks ih =>
    intro b k h
    rcases List.mem_cons.mp h with h | h
    case inl =>
      subst h
      exact removeFold_preserves_none ks _ k (getKey_remove_self b k)
    case inr =>
      exact ih _ k h

/-- The placement loop only ever removes cards from the placing player's
hand. -/
theorem applyLoop_hand_subset (player : Player) :
    ∀ (placements : List Placement) (state : GameState) (total : Int),
      ((applyLoop player placements state total).1.get_player_state player).hand ⊆
        (state.get_player_state player).hand := by
  intro placements
  induction placements with
  | nil =>
    intro state total
    exact fun x hx => hx
  | cons p rest ih =>
    intro state total
    dsimp only [applyLoop]
    split
    case h_1 => exact fun x hx => hx
    case h_2 card hf =>
      split
      case h_1 => exact fun x hx => hx
      case h_2 b1 hp =>
        intro x hx
        have hx1 := ih _ _ hx
        rw [get_set_player_state_same] at hx1
        exact List.erase_subset _ _ hx1

/-- The placement loop removes each placed card from the hand: after a
loop that raised no exception, on a hand whose instance ids are distinct,
no card left in the placing player's hand carries an id named by the
batch. -/
theorem applyLoop_removes (player : Player) :
    ∀ (placements : List Placement) (state : GameState) (total : Int),
      ((state.get_player_state player).hand.map (fun c => c.instance_id)).Nodup →
      (applyLoop player placements state total).2.2 = false →
      ∀ p ∈ placements,
        ∀ c ∈ ((applyLoop player placements state total).1.get_player_state player).hand,
          c.instance_id ≠ p.card_instance_id := by
  intro placements
  induction placements with
  | nil =>
    intro state total hnd herr p hp
    cases hp
  | cons p0 rest ih =>
    intro state total hnd herr p hp c hc
    dsimp only [applyLoop] at herr hc
    cases hf : (state.get_player_state player).hand.find?
        (fun c => decide (c.instance_id = p0.card_instance_id)) with
    | none =>
      rw [hf] at herr
      simp at herr
    | some card =>
      rw [hf] at herr hc
      dsimp only at herr hc
      cases hb : state.board.place
          { inst := card
            current_hp := card.max_defense
            col := p0.col
            row := p0.row
            owner := player
            face_down := true } with
      | none =>
        rw [hb] at herr
        simp at herr
      | some b1 =>
        rw [hb] at herr hc
        dsimp only at herr hc
        have hcard_mem : card ∈ (state.get_player_state player).hand :=
          List.mem_of_find?_eq_some hf
        have hcard_id : card.instance_id = p0.card_instance_id := by
          simpa using List.find?_some hf
        have hnd1 : (((state.get_player_state player).hand.erase card).map
            (fun c => c.instance_id)).Nodup :=
          List.Nodup.sublist
            (List.Sublist.map _ (List.erase_sublist card (state.get_player_state player).hand))
            hnd
        rcases List.mem_cons.mp hp with hp0 | hprest
        case inl =>
          subst hp0
          have hsub := applyLoop_hand_subset player rest
            (GameState.set_player_state { state with board := b1 } player
              { state.get_player_state player with
                  hand := (state.get_player_state player).hand.erase card })
            (total + card.definition.mana_cost)
          rw [get_set_player_state_same] at hsub
          have hce : c ∈ (state.get_player_state player).hand.erase card := hsub hc
          have hhand_nodup : (state.get_player_state player).hand.Nodup :=
            List.Nodup.of_map _ hnd
          have hcc := (List.Nodup.mem_erase_iff hhand_nodup).mp hce
          intro hid
          exact hcc.1 (List.inj_on_of_nodup_map hnd hcc.2 hcard_mem (hid.trans hcard_id.symm))
        case inr =>
          refine ih _ _ ?_ herr p hprest c hc
          rw [get_set_player_state_same]
          exact hnd1

/-- XP bookkeeping never changes an instance's identity. -/
theorem addXpTo_instance_id (c : CardInstance) (amount : Int) :
    (addXpTo c amount).instance_id = c.instance_id := by
  unfold addXpTo CardInstance.add_xp CardInstance.level_up
  dsimp only
  split
  case isTrue => rfl
  case isFalse => rfl

/-- The destroyed-card XP backfill changes no hand or deck membership:
the instance id sequences are untouched. -/
theorem cleanupDestroyedXp_ids (es : List CombatEvent) (ps : PlayerState) :
    ((cleanupDestroyedXp es ps).hand.map (fun c => c.instance_id) =
      ps.hand.map (fun c => c.instance_id)) ∧
    ((cleanupDestroyedXp es ps).deck.map (fun c => c.instance_id) =
      ps.deck.map (fun c => c.instance_id)) := by
  unfold cleanupDestroyedXp
  generalize es.filter (fun e => e.defender_destroyed) = l
  induction l generalizing ps with
  | nil => exact ⟨rfl, rfl⟩
  | cons e l ih =>
    rw [List.foldl_cons]
    have hmap : ∀ (xs : List CardInstance) (nm : String) (amt : Int),
        (xs.map (fun ci =>
          if ci.definition.name = nm then addXpTo ci amt else ci)).map
            (fun c => c.instance_id) = xs.map (fun c => c.instance_id) := by
      intro xs nm amt
      rw [List.map_map]
      apply List.map_congr_left
      intro a _
      dsimp only [Function.comp]
      split
      case isTrue => rw [addXpTo_instance_id]
      case isFalse => rfl
    constructor
    case left => rw [(ih _).1]; exact hmap _ _ _
    case right => rw [(ih _).2]; exact hmap _ _ _

/-- Dormancy bookkeeping changes no hand or deck membership. -/
theorem cleanupDormancy_ids (ns : List String) (ps : PlayerState) :
    ((cleanupDormancy ns ps).hand.map (fun c => c.instance_id) =
      ps.hand.map (fun c => c.instance_id)) ∧
    ((cleanupDormancy ns ps).deck.map (fun c => c.instance_id) =
      ps.deck.map (fun c => c.instance_id)) := by
  unfold cleanupDormancy
  constructor <;>
    (rw [List.map_map]
     apply List.map_congr_left
     intro a _
     dsimp only [Function.comp]
     split <;> rfl)

/-- The conditional dormancy pass of cleanup preserves id sequences. -/
theorem dormancy_ite_ids (p : Prop) [Decidable p] (ns : List String) (ps : PlayerState) :
    (((if p then cleanupDormancy ns ps else ps).hand.map (fun c => c.instance_id)) =
      ps.hand.map (fun c => c.instance_id)) ∧
    (((if p then cleanupDormancy ns ps else ps).deck.map (fun c => c.instance_id)) =
      ps.deck.map (fun c => c.instance_id)) := by
  split
  case isTrue => exact cleanupDormancy_ids ns ps
  case isFalse => exact ⟨rfl, rfl⟩

/-- Mana debt forgiveness touches neither hand nor deck. -/
theorem cleanupManaDebt_hand_deck (ps : PlayerState) :
    (cleanupManaDebt ps).hand = ps.hand ∧ (cleanupManaDebt ps).deck = ps.deck := by
  unfold cleanupManaDebt
  split
  case isTrue => exact ⟨rfl, rfl⟩
  case isFalse => exact ⟨rfl, rfl⟩

/-- Survivor XP rewrites board instances in place: any instance id found
among one side's cards afterwards was on the board before. -/
theorem cleanupSurvivorXp_ids (es : List CombatEvent) (ns : List String) (b : Board)
    (q : Player) (x : String)
    (hx : x ∈ ((cleanupSurvivorXp es ns b).cards_for q).map (fun c => c.inst.instance_id)) :
    x ∈ b.all_cards.map (fun c => c.inst.instance_id) := by
  unfold cleanupSurvivorXp Board.cards_for at hx
  rcases List.mem_map.mp hx with ⟨c, hc, hcx⟩
  have hc2 := (List.mem_filter.mp hc).1
  rcases List.mem_map.mp hc2 with ⟨c0, hc0, hcc⟩
  apply List.mem_map.mpr
  refine ⟨c0, hc0, ?_⟩
  rw [← hcx, ← hcc]
  dsimp only
  rw [addXpTo_instance_id]

/-- Cleanup introduces no instance into a hand or deck beyond what was
already in that player's hand or deck or on the board: an instance id
absent from all five places before cleanup is absent from every hand and
deck after it. -/
theorem cleanup_no_new_ids (state s' : GameState) (iid : String)
    (hc : phase_cleanup state = some s')
    (h1 : iid ∉ state.player1.hand.map (fun c => c.instance_id))
    (h2 : iid ∉ state.player1.deck.map (fun c => c.instance_id))
    (h3 : iid ∉ state.player2.hand.map (fun c => c.instance_id))
    (h4 : iid ∉ state.player2.deck.map (fun c => c.instance_id))
    (h5 : iid ∉ state.board.all_cards.map (fun c => c.inst.instance_id)) :
    (iid ∉ s'.player1.hand.map (fun c => c.instance_id)) ∧
    (iid ∉ s'.player1.deck.map (fun c => c.instance_id)) ∧
    (iid ∉ s'.player2.hand.map (fun c => c.instance_id)) ∧
    (iid ∉ s'.player2.deck.map (fun c => c.instance_id)) := by
  unfold phase_cleanup at hc
  cases hl : state.round_history.getLast? with
  | none =>
    rw [hl] at hc
    cases hc
  | some lr =>
    rw [hl] at hc
    dsimp only at hc
    cases hc
    refine ⟨?_, ?_, ?_, ?_⟩
    case _ =>
      intro hmem
      dsimp only at hmem
      rw [(cleanupManaDebt_hand_deck _).1] at hmem
      dsimp only at hmem
      rw [List.map_append] at hmem
      rcases List.mem_append.mp hmem with hm | hm
      case inl =>
        rw [(dormancy_ite_ids _ _ _).1, (cleanupDestroyedXp_ids _ _).1] at hm
        exact h1 hm
      case inr =>
        rw [List.map_map] at hm
        exact h5 (cleanupSurvivorXp_ids _ _ _ _ _ hm)
    case _ =>
      intro hmem
      dsimp only at hmem
      rw [(cleanupManaDebt_hand_deck _).2] at hmem
      dsimp only at hmem
      rw [(dormancy_ite_ids _ _ _).2, (cleanupDestroyedXp_ids _ _).2] at hmem
      exact h2 hmem
    case _ =>
      intro hmem
      dsimp only at hmem
      rw [(cleanupManaDebt_hand_deck _).1] at hmem
      dsimp only at hmem
      rw [List.map_append] at hmem
      rcases List.mem_append.mp hmem with hm | hm
      case inl =>
        rw [(dormancy_ite_ids _ _ _).1, (cleanupDestroyedXp_ids _ _).1] at hm
        exact h3 hm
      case inr =>
        rw [List.map_map] at hm
        exact h5 (cleanupSurvivorXp_ids _ _ _ _ _ hm)
    case _ =>
      intro hmem
      dsimp only at hmem
      rw [(cleanupManaDebt_hand_deck _).2] at hmem
      dsimp only at hmem
      rw [(dormancy_ite_ids _ _ _).2, (cleanupDestroyedXp_ids _ _).2] at hmem
      exact h4 hmem

/-- C8: for an attack resolved in the loop, the damage recorded in the
appended CombatEvent and subtracted from the defender's hp is
`computeDamage`, which equals `floor(effective_attack × Matchup)` for
every defender not carrying an ARMOR-effect ability — whether it has no
ability at all or any other ability (LIFESTEAL, THORNS, LAST_STAND,
GHOST_STEP, VEIL_ECHO) — is further reduced to `max 0 (damage - armor)`
for a defender with a passive ARMOR ability, and is never negative. -/
theorem C8_damage (acc : ResolveAcc) (k : Int × Row × Player)
    (attacker target : BoardCard)
    (hA : acc.board.getKey k = some attacker)
    (hAlive : attacker.is_alive = true)
    (hF : _find_target attacker acc.board = some target)
    (hT : acc.board.getKey target.cellKey = some target)
    (hraw : 0 ≤ attacker.effective_attack) :
    ((attackStep acc k).events.map (fun e => e.damage_dealt) =
      acc.events.map (fun e => e.damage_dealt) ++
        [computeDamage attacker.effective_attack attacker.inst.definition.card_type
          target.inst.definition.card_type target.inst.definition.ability]) ∧
    (((attackStep acc k).board.getKey target.cellKey).map (fun c => c.current_hp) =
      some (target.current_hp -
        computeDamage attacker.effective_attack attacker.inst.definition.card_type
          target.inst.definition.card_type target.inst.definition.ability)) ∧
    (target.inst.definition.ability = none →
      computeDamage attacker.effective_attack attacker.inst.definition.card_type
          target.inst.definition.card_type target.inst.definition.ability =
        ⌊(attacker.effective_attack : ℚ) *
          TYPE_MATCHUP attacker.inst.definition.card_type
            target.inst.definition.card_type⌋) ∧
    (∀ ab, target.inst.definition.ability = some ab →
      ab.effect ≠ AbilityEffect.ARMOR →
      computeDamage attacker.effective_attack attacker.inst.definition.card_type
          target.inst.definition.card_type target.inst.definition.ability =
        ⌊(attacker.effective_attack : ℚ) *
          TYPE_MATCHUP attacker.inst.definition.card_type
            target.inst.definition.card_type⌋) ∧
    (∀ ab, target.inst.definition.ability = some ab →
      ab.trigger = AbilityTrigger.PASSIVE → ab.effect = AbilityEffect.ARMOR →
      computeDamage attacker.effective_attack attacker.inst.definition.card_type
          target.inst.definition.card_type target.inst.definition.ability =
        max 0 (⌊(attacker.effective_attack : ℚ) *
            TYPE_MATCHUP attacker.inst.definition.card_type
              target.inst.definition.card_type⌋ - pyTrunc ab.value)) ∧
    0 ≤ computeDamage attacker.effective_attack attacker.inst.definition.card_type
          target.inst.definition.card_type target.inst.definition.ability := by
  have hfloor : floatMulTrunc attacker.effective_attack
      (TYPE_MATCHUP attacker.inst.definition.card_type target.inst.definition.card_type) =
      ⌊(attacker.effective_attack : ℚ) *
        TYPE_MATCHUP attacker.inst.definition.card_type target.inst.definition.card_type⌋ :=
    floatMulTrunc_eq_floor _ _ hraw (TYPE_MATCHUP_nonneg _ _)
  have hfloor_nonneg : 0 ≤ ⌊(attacker.effective_attack : ℚ) *
      TYPE_MATCHUP attacker.inst.definition.card_type target.inst.definition.card_type⌋ :=
    Int.le_floor.mpr (by
      push_cast
      exact mul_nonneg (by exact_mod_cast hraw) (TYPE_MATCHUP_nonneg _ _))
  have hne : ¬ (target.cellKey.1 = k.1 ∧ target.cellKey.2.1 = k.2.1 ∧
      target.cellKey.2.2 = k.2.2) := by
    have h1 := get_fields acc.board k.1 k.2.1 k.2.2 attacker hA
    have h2 := find_target_owner attacker target acc.board hF
    intro hcon
    have heq : target.owner = attacker.owner := hcon.2.2.trans h1.2.2.symm
    rw [h2] at heq
    cases ha : attacker.owner <;> rw [ha] at heq <;> simp at heq
  refine ⟨?_, ?_, ?_, ?_, ?_, ?_⟩
  case _ =>
    unfold attackStep
    rw [hA]
    dsimp only
    rw [if_neg (by simp [hAlive]), hF]
    dsimp only
    simp
  case _ =>
    unfold attackStep
    rw [hA]
    dsimp only
    rw [if_neg (by simp [hAlive]), hF]
    dsimp only
    rw [getKey_applyEcho_other _ _ _ _ hne, getKey_applyHeal_other _ _ _ _ hne]
    have hupd := getKey_updateKey_self acc.board target.cellKey (fun c => { c with current_hp := c.current_hp - computeDamage attacker.effective_attack attacker.inst.definition.card_type target.inst.definition.card_type target.inst.definition.ability }) (fun c => ⟨rfl, rfl, rfl⟩)
    rw [hupd, hT]
    rfl
  case _ =>
    intro hnone
    rw [hnone]
    exact hfloor
  case _ =>
    intro ab hab hef
    rw [hab]
    dsimp only [computeDamage]
    rw [if_neg hef]
    exact hfloor
  case _ =>
    intro ab hab htr hef
    rw [hab]
    dsimp only [computeDamage]
    rw [if_pos hef, hfloor]
  case _ =>
    cases hab : target.inst.definition.ability with
    | none =>
      show 0 ≤ floatMulTrunc attacker.effective_attack
        (TYPE_MATCHUP attacker.inst.definition.card_type target.inst.definition.card_type)
      rw [hfloor]
      exact hfloor_nonneg
    | some ab =>
      dsimp only [computeDamage]
      by_cases hef : ab.effect = AbilityEffect.ARMOR
      case pos =>
        rw [if_pos hef]
        exact le_max_left 0 _
      case neg =>
        rw [if_neg hef]
        rw [hfloor]
        exact hfloor_nonneg

/-- C8, witness: the damage formula theorem applied to the board with
the THORNS-carrying defender — its recorded hp drop is `computeDamage`,
and since THORNS is not ARMOR the damage equals the plain floor
formula. -/
theorem C8_damage_witness :
    (((attackStep { board := c8Board, events := [], event_order := 0, dead_keys := [] }
        (1, Row.FRONT, Player.ONE)).board.getKey c8ThornsEnemy.cellKey).map
      (fun c => c.current_hp) =
      some (c8ThornsEnemy.current_hp -
        computeDamage c4Attacker.effective_attack c4Attacker.inst.definition.card_type
          c8ThornsEnemy.inst.definition.card_type c8ThornsEnemy.inst.definition.ability)) ∧
    (computeDamage c4Attacker.effective_attack c4Attacker.inst.definition.card_type
        c8ThornsEnemy.inst.definition.card_type c8ThornsEnemy.inst.definition.ability =
      ⌊(c4Attacker.effective_attack : ℚ) *
        TYPE_MATCHUP c4Attacker.inst.definition.card_type
          c8ThornsEnemy.inst.definition.card_type⌋) :=
  ⟨(C8_damage { board := c8Board, events := [], event_order := 0, dead_keys := [] }
      (1, Row.FRONT, Player.ONE) c4Attacker c8ThornsEnemy (by decide) (by decide) (by decide)
      (by decide) (by decide)).2.1,
   (C8_damage { board := c8Board, events := [], event_order := 0, dead_keys := [] }
      (1, Row.FRONT, Player.ONE) c4Attacker c8ThornsEnemy (by decide) (by decide) (by decide)
      (by decide) (by decide)).2.2.2.1
     { trigger := AbilityTrigger.ON_ATTACK, effect := AbilityEffect.THORNS,
       value := mkRat 1 2, description := "" } (by decide) (by decide)⟩

/-- C9, amended: a card instance destroyed as a defender is permanently
removed from the match: the placement loop removes every placed card from
its owner's hand (given distinct hand ids and no exception), the
dead-card removal fold of Resolve leaves every `dead_cards` key
unoccupied, and Cleanup never introduces into a hand or deck an instance
id that was not already in a hand, a deck, or on the board — so an
instance absent everywhere after Resolve (as a destroyed defender is)
stays absent after Cleanup.  (A card killed by Veil Echo is never listed
in `dead_cards`; it remains on the board and returns to hand, which is
why the claim is restricted to defenders.) -/
theorem C9_destroyed_defender_removed :
    (∀ (player : Player) (placements : List Placement) (state : GameState),
      ((state.get_player_state player).hand.map (fun c => c.instance_id)).Nodup →
      (apply_placement state player placements).2 = false →
      ∀ p ∈ placements,
        ∀ c ∈ ((apply_placement state player placements).1.get_player_state player).hand,
          c.instance_id ≠ p.card_instance_id) ∧
    (∀ (ks : List (Int × Row × Player)) (b : Board) (k : Int × Row × Player), k ∈ ks →
      (ks.foldl (fun bb kk => bb.remove kk.1 kk.2.1 kk.2.2) b).getKey k = none) ∧
    (∀ (state s' : GameState) (iid : String),
      phase_cleanup state = some s' →
      iid ∉ state.player1.hand.map (fun c => c.instance_id) →
      iid ∉ state.player1.deck.map (fun c => c.instance_id) →
      iid ∉ state.player2.hand.map (fun c => c.instance_id) →
      iid ∉ state.player2.deck.map (fun c => c.instance_id) →
      iid ∉ state.board.all_cards.map (fun c => c.inst.instance_id) →
      (iid ∉ s'.player1.hand.map (fun c => c.instance_id)) ∧
      (iid ∉ s'.player1.deck.map (fun c => c.instance_id)) ∧
      (iid ∉ s'.player2.hand.map (fun c => c.instance_id)) ∧
      (iid ∉ s'.player2.deck.map (fun c => c.instance_id))) := by
  refine ⟨?_, removeFold_getKey, cleanup_no_new_ids⟩
  intro player placements state hnd herr p hp c hc
  dsimp only [apply_placement] at herr hc
  by_cases he : (applyLoop player placements state 0).2.2 = true
  case pos =>
    rw [if_pos he] at herr
    simp at herr
  case neg =>
    rw [if_neg he] at hc
    dsimp only at hc
    rw [get_set_player_state_same] at hc
    have hf : (applyLoop player placements state 0).2.2 = false := by
      simpa using he
    split at hc
    case isTrue =>
      exact applyLoop_removes player placements state 0 hnd hf p hp c hc
    case isFalse =>
      exact applyLoop_removes player placements state 0 hnd hf p hp c hc

/-- C9, witness: the amended theorem applied to concrete inputs — the
placed card's id is gone from the hand after the Veil Surge placement,
the removal fold empties a listed key on the witness board, and the
destroyed Xcard's id `x1`, absent everywhere after Resolve, is in
neither hand nor deck after Cleanup. -/
theorem C9_destroyed_defender_removed_witness :
    ((testInst "s2" (testDef "Stwo" CardType.SPECTER 2 2 2 5 none) Player.ONE).instance_id ≠
      "s1") ∧
    (([((1 : Int), Row.FRONT, Player.ONE)].foldl
        (fun bb kk => bb.remove kk.1 kk.2.1 kk.2.2) c4Board).getKey
      (1, Row.FRONT, Player.ONE) = none) ∧
    (("x1" ∉ xpRoundCleaned.player1.hand.map (fun c => c.instance_id)) ∧
     ("x1" ∉ xpRoundCleaned.player1.deck.map (fun c => c.instance_id)) ∧
     ("x1" ∉ xpRoundCleaned.player2.hand.map (fun c => c.instance_id)) ∧
     ("x1" ∉ xpRoundCleaned.player2.deck.map (fun c => c.instance_id))) :=
  ⟨C9_destroyed_defender_removed.1 Player.ONE surgeBatch surgeState (by decide) (by decide)
    { card_instance_id := "s1", col := 0, row := Row.FRONT } (by decide)
    (testInst "s2" (testDef "Stwo" CardType.SPECTER 2 2 2 5 none) Player.ONE) (by decide),
   C9_destroyed_defender_removed.2.1 [((1 : Int), Row.FRONT, Player.ONE)] c4Board
    (1, Row.FRONT, Player.ONE) (by decide),
   C9_destroyed_defender_removed.2.2 xpRoundResolved.1 xpRoundCleaned "x1" (by rfl)
    (by decide) (by decide) (by decide) (by decide) (by decide)⟩

end Veilborn
